import Mathlib

/-!
# Verification of the x402r arbiter (EigenCloud) core against its specification

This file gives a shallow embedding of the arbitration core of the
x402r-arbiter-eigencloud repository and proves (or refutes) the frozen
claims about it.

Embedding conventions:
* JavaScript numbers are modelled as `ℚ` (the claims under scrutiny concern
  order comparisons of decimal literals, which are exact in `ℚ`).
* JavaScript `undefined` (absent object property) is modelled as `none`.
* External collaborators (the keccak256 hash, the IPFS/content store fetch,
  the EigenAI model call, `Math.random`) are oracle parameters; the code of
  the repository itself is translated into executable definitions.
* Fallible code returns `Option`/`Except`; a thrown JS exception is an
  `Except.error`.
-/

namespace X402r

/-- An on-chain evidence entry, mirroring `EvidenceEntry` of
`court-ui/lib/contracts.ts` (and the `Evidence` type consumed by
`src/index.ts` and `src/prompts.ts`): submitter address, role
(0 = Payer, 1 = Receiver, 2 = Arbiter), timestamp in seconds, and the
content identifier string. -/
structure Evidence where
  submitter : String
  role : Nat
  timestamp : Nat
  cid : String
deriving Repr, DecidableEq, Inhabited

/-- A JSON value as produced by JavaScript `JSON.parse`. -/
inductive Json where
  | null : Json
  | bool (b : Bool) : Json
  | num (q : ℚ) : Json
  | str (s : String) : Json
  | arr (elts : List Json) : Json
  | obj (fields : List (String × Json)) : Json
deriving Repr, Inhabited

/-! ## JSON.parse

A faithful executable model of JavaScript's `JSON.parse` (ECMA-404 grammar,
strict: the whole input must be consumed).  Recursion is by fuel; the top
entry point supplies fuel that is ample for every input the theorems below
evaluate. -/

/-- JSON whitespace characters (ECMA-404). -/
def isJsonWs (c : Char) : Bool :=
  c = ' ' || c = '\t' || c = '\n' || c = '\r'

/-- Skip leading JSON whitespace. -/
def skipWs : List Char → List Char
  | [] => []
  | c :: cs => if isJsonWs c then skipWs cs else c :: cs

def isDigit (c : Char) : Bool := '0' ≤ c && c ≤ '9'

def digitVal (c : Char) : Nat := c.toNat - '0'.toNat

/-- Read a maximal run of decimal digits (must be non-empty). -/
def readDigits : List Char → Option (List Nat × List Char)
  | [] => none
  | c :: cs =>
    if isDigit c then
      match cs with
      | [] => some ([digitVal c], [])
      | _ =>
        match readDigits cs with
        | some (ds, rest) => some (digitVal c :: ds, rest)
        | none => some ([digitVal c], cs)
    else none

def digitsToNat (ds : List Nat) : Nat := ds.foldl (fun a d => a * 10 + d) 0

def isHexDigit (c : Char) : Bool :=
  isDigit c || ('a' ≤ c && c ≤ 'f') || ('A' ≤ c && c ≤ 'F')

def hexVal (c : Char) : Nat :=
  if isDigit c then digitVal c
  else if 'a' ≤ c && c ≤ 'f' then c.toNat - 'a'.toNat + 10
  else c.toNat - 'A'.toNat + 10

/-- Parse the integer part of a JSON number: `0` or a nonzero digit followed
by digits (leading zeros are rejected, as in ECMA-404). -/
def readIntPart : List Char → Option (Nat × List Char)
  | [] => none
  | c :: cs =>
    if c = '0' then some (0, cs)
    else if isDigit c then
      match readDigits cs with
      | some (ds, rest) => some (digitsToNat (digitVal c :: ds), rest)
      | none => some (digitVal c, cs)
    else none

/-- Parse the optional fraction part; returns (value scaled, scale) so that
the fraction is `f / 10^k`. -/
def readFracPart : List Char → Option ((Nat × Nat) × List Char)
  | '.' :: cs =>
    match readDigits cs with
    | some (ds, rest) => some ((digitsToNat ds, ds.length), rest)
    | none => none
  | cs => some ((0, 0), cs)

/-- Parse the optional exponent part. -/
def readExpPart : List Char → Option (Int × List Char)
  | c :: cs =>
    if c = 'e' || c = 'E' then
      match cs with
      | '+' :: cs' =>
        match readDigits cs' with
        | some (ds, rest) => some ((digitsToNat ds : Int), rest)
        | none => none
      | '-' :: cs' =>
        match readDigits cs' with
        | some (ds, rest) => some (-(digitsToNat ds : Int), rest)
        | none => none
      | _ =>
        match readDigits cs with
        | some (ds, rest) => some ((digitsToNat ds : Int), rest)
        | none => none
    else some (0, c :: cs)
  | [] => some (0, [])

/-- The exact rational value `±(n + f/10^k) · 10^e` of a JSON number with
integer part `n`, fraction digits `f` over scale `k`, and exponent `e`.
Built from `mkRat` and integer arithmetic so that it evaluates by kernel
reduction. -/
def jsonNumVal (neg : Bool) (n f k : Nat) (e : Int) : ℚ :=
  let mant : Int := (if neg then -1 else 1) * (Int.ofNat (n * 10 ^ k + f))
  if 0 ≤ e then mkRat (mant * Int.ofNat (10 ^ e.toNat)) (10 ^ k)
  else mkRat mant (10 ^ k * 10 ^ (-e).toNat)

/-- Parse a JSON number starting at the current position (the leading `-`
has already been examined by the caller). -/
def readNumber (neg : Bool) (cs : List Char) : Option (ℚ × List Char) :=
  match readIntPart cs with
  | none => none
  | some (n, cs₁) =>
    match readFracPart cs₁ with
    | none => none
    | some ((f, k), cs₂) =>
      match readExpPart cs₂ with
      | none => none
      | some (e, cs₃) => some (jsonNumVal neg n f k e, cs₃)

/-- Parse a JSON string body (after the opening quote), handling escapes. -/
def readStringBody (fuel : Nat) (acc : List Char) (cs : List Char) :
    Option (String × List Char) :=
  match fuel, cs with
  | 0, _ => none
  | _, [] => none
  | fuel + 1, c :: cs =>
    if c = '"' then some (String.mk acc.reverse, cs)
    else if c = '\\' then
      match cs with
      | [] => none
      | e :: cs' =>
        if e = '"' then readStringBody fuel ('"' :: acc) cs'
        else if e = '\\' then readStringBody fuel ('\\' :: acc) cs'
        else if e = '/' then readStringBody fuel ('/' :: acc) cs'
        else if e = 'b' then readStringBody fuel (Char.ofNat 8 :: acc) cs'
        else if e = 'f' then readStringBody fuel (Char.ofNat 12 :: acc) cs'
        else if e = 'n' then readStringBody fuel ('\n' :: acc) cs'
        else if e = 'r' then readStringBody fuel ('\r' :: acc) cs'
        else if e = 't' then readStringBody fuel ('\t' :: acc) cs'
        else if e = 'u' then
          match cs' with
          | h₁ :: h₂ :: h₃ :: h₄ :: cs'' =>
            if isHexDigit h₁ && isHexDigit h₂ && isHexDigit h₃ && isHexDigit h₄ then
              let code := ((hexVal h₁ * 16 + hexVal h₂) * 16 + hexVal h₃) * 16 + hexVal h₄
              readStringBody fuel (Char.ofNat code :: acc) cs''
            else none
          | _ => none
        else none
    else if c.toNat < 0x20 then none
    else readStringBody fuel (c :: acc) cs

/-- Parse the members of an object, positioned at a key; values are parsed
by the function argument `pv` (tying the knot structurally on fuel in
`parseValue`). -/
def parseMembersAux (pv : List Char → Option (Json × List Char)) :
    Nat → List (String × Json) → List Char → Option (Json × List Char)
  | 0, _, _ => none
  | fuel + 1, acc, cs =>
    match skipWs cs with
    | '"' :: rest =>
      match readStringBody (rest.length + 1) [] rest with
      | none => none
      | some (key, rest₁) =>
        match skipWs rest₁ with
        | ':' :: rest₂ =>
          match pv rest₂ with
          | none => none
          | some (v, rest₃) =>
            match skipWs rest₃ with
            | ',' :: rest₄ => parseMembersAux pv fuel ((key, v) :: acc) rest₄
            | '}' :: rest₄ => some (Json.obj ((key, v) :: acc).reverse, rest₄)
            | _ => none
        | _ => none
    | _ => none

/-- Parse the elements of an array, positioned at the first element; values
are parsed by the function argument `pv`. -/
def parseElementsAux (pv : List Char → Option (Json × List Char)) :
    Nat → List Json → List Char → Option (Json × List Char)
  | 0, _, _ => none
  | fuel + 1, acc, cs =>
    match pv cs with
    | none => none
    | some (v, rest) =>
      match skipWs rest with
      | ',' :: rest' => parseElementsAux pv fuel (v :: acc) rest'
      | ']' :: rest' => some (Json.arr (v :: acc).reverse, rest')
      | _ => none

/-- Parse a JSON value (leading whitespace skipped here).  The fuel bounds
the nesting depth only; the member/element loops carry their own fuel. -/
def parseValue : Nat → List Char → Option (Json × List Char)
  | 0, _ => none
  | fuel + 1, cs =>
    match skipWs cs with
    | [] => none
    | c :: rest =>
      if c = '{' then
        match skipWs rest with
        | '}' :: rest' => some (Json.obj [], rest')
        | rest' => parseMembersAux (parseValue fuel) (rest'.length + 1) [] rest'
      else if c = '[' then
        match skipWs rest with
        | ']' :: rest' => some (Json.arr [], rest')
        | rest' => parseElementsAux (parseValue fuel) (rest'.length + 1) [] rest'
      else if c = '"' then
        match readStringBody (rest.length + 1) [] rest with
        | some (s, rest') => some (Json.str s, rest')
        | none => none
      else if c = '-' then
        match readNumber true rest with
        | some (q, rest') => some (Json.num q, rest')
        | none => none
      else if isDigit c then
        match readNumber false (c :: rest) with
        | some (q, rest') => some (Json.num q, rest')
        | none => none
      else if c = 't' then
        match rest with
        | 'r' :: 'u' :: 'e' :: rest' => some (Json.bool true, rest')
        | _ => none
      else if c = 'f' then
        match rest with
        | 'a' :: 'l' :: 's' :: 'e' :: rest' => some (Json.bool false, rest')
        | _ => none
      else if c = 'n' then
        match rest with
        | 'u' :: 'l' :: 'l' :: rest' => some (Json.null, rest')
        | _ => none
      else none

/-- JavaScript `JSON.parse`: parse the whole string as a single JSON value;
`none` models a thrown `SyntaxError`. -/
def jsonParse (s : String) : Option Json :=
  match parseValue (2 * s.length + 8) s.data with
  | some (j, rest) => if (skipWs rest).isEmpty then some j else none
  | none => none

/-! ## JavaScript object access and serialization -/

/-- JS property access `o.k` on a parsed JSON value; `none` models
`undefined`.  `JSON.parse` keeps the last occurrence of a duplicated key,
hence the `getLast?`.  Access on a non-object primitive yields `undefined`
(boxing); access on `null` is handled at the use sites (it throws in JS). -/
def jsGet : Json → String → Option Json
  | Json.obj fields, k => ((fields.filter (fun p => p.1 == k)).getLast?).map (fun p => p.2)
  | _, _ => none

/-- Escape one character as inside a `JSON.stringify` string literal. -/
def escapeChar (c : Char) : String :=
  if c = '"' then "\\\""
  else if c = '\\' then "\\\\"
  else if c = '\n' then "\\n"
  else if c = '\r' then "\\r"
  else if c = '\t' then "\\t"
  else if c.toNat = 8 then "\\b"
  else if c.toNat = 12 then "\\f"
  else if c.toNat < 0x20 then
    "\\u00" ++ String.mk [("0123456789abcdef".data.getD (c.toNat / 16) '0'),
                          ("0123456789abcdef".data.getD (c.toNat % 16) '0')]
  else String.singleton c

def escapeJsonString (s : String) : String :=
  "\"" ++ String.join (s.data.map escapeChar) ++ "\""

/-- Smallest `k` (searched up to the fuel bound) with `d ∣ 10^k`. -/
def findPow10 (d : Nat) : Nat → Nat → Option Nat
  | _, 0 => none
  | k, fuel + 1 => if 10 ^ k % d = 0 then some k else findPow10 d (k + 1) fuel

def padZeros (s : String) (k : Nat) : String :=
  String.mk (List.replicate (k - s.length) '0') ++ s

/-- Decimal rendering of a rational, matching what `JSON.stringify` prints
for the finite-decimal numbers this system produces (integers without a
point, other decimals with their shortest fraction). -/
def renderNum (q : ℚ) : String :=
  if q.den = 1 then toString q.num
  else
    match findPow10 q.den 0 100 with
    | some k =>
      let a := q.num.natAbs * (10 ^ k / q.den)
      (if q.num < 0 then "-" else "") ++ toString (a / 10 ^ k) ++ "." ++
        padZeros (toString (a % 10 ^ k)) k
    | none => toString q.num ++ "/" ++ toString q.den

/-- `JSON.stringify` with a depth fuel (ample for every value this system
serializes; `JSON.stringify` of deeper values is not exercised here). -/
def renderJ : Nat → Json → String
  | 0, _ => ""
  | fuel + 1, j =>
    match j with
    | Json.null => "null"
    | Json.bool b => if b then "true" else "false"
    | Json.num q => renderNum q
    | Json.str s => escapeJsonString s
    | Json.arr elts =>
      "[" ++ String.intercalate "," (elts.map (renderJ fuel)) ++ "]"
    | Json.obj fields =>
      "\x7b" ++ String.intercalate ","
        (fields.map (fun p => escapeJsonString p.1 ++ ":" ++ renderJ fuel p.2)) ++ "\x7d"

def jsonStringify (j : Json) : String := renderJ 1000 j

/-! ## List-of-characters helpers (substring search, suffix tests) -/

def isPrefixL : List Char → List Char → Bool
  | [], _ => true
  | _ :: _, [] => false
  | p :: ps, c :: cs => p == c && isPrefixL ps cs

/-- Index (relative to the given list) of the first occurrence of `pat`;
the accumulator `i` offsets the returned index. -/
def findSubstrAux (pat : List Char) : List Char → Nat → Option Nat
  | [], i => if pat.isEmpty then some i else none
  | s@(_ :: rest), i => if isPrefixL pat s then some i else findSubstrAux pat rest (i + 1)

def endsWithL (pat s : List Char) : Bool := isPrefixL pat.reverse s.reverse

/-- JavaScript `String.prototype.trim` whitespace. -/
def isJsWs (c : Char) : Bool :=
  c = ' ' || c = '\t' || c = '\n' || c = '\r' ||
  c.toNat = 0x0B || c.toNat = 0x0C || c.toNat = 0xA0 || c.toNat = 0xFEFF

def trimL (cs : List Char) : List Char :=
  ((cs.dropWhile isJsWs).reverse.dropWhile isJsWs).reverse

/-! ## EigenAI response display-stripping (`src/eigenai-client.ts`)

`stripTags` removes the leading `<|channel|>...<|message|>` wrapper (lazy
match: up to the first `<|message|>`), a trailing `<|end|>`, and trims. -/

def stripTags (text : String) : String :=
  let cs := text.data
  let cs₁ :=
    if isPrefixL "<|channel|>".data cs then
      match findSubstrAux "<|message|>".data (cs.drop 11) 0 with
      | some i => cs.drop (11 + i + 11)
      | none => cs
    else cs
  let cs₂ := if endsWithL "<|end|>".data cs₁ then cs₁.take (cs₁.length - 7) else cs₁
  String.mk (trimL cs₂)

/-! ## Evidence resolution (`court-ui/lib/ipfs.ts`, and the resolution step
of `evaluateDispute` in `src/index.ts`)

The orchestrator calls `resolveEvidenceContent`; its in-repo form is
`fetchEvidenceContent` of `court-ui/lib/ipfs.ts`: inline JSON is returned
verbatim, a recognized IPFS CID is fetched (a failed fetch throws), and any
other string is returned as-is.  The network fetch is the oracle
`fetch : String → Option String` (`none` = failed request). -/

def isAlphaNum (c : Char) : Bool :=
  isDigit c || ('a' ≤ c && c ≤ 'z') || ('A' ≤ c && c ≤ 'Z')

/-- `isIpfsCid` from `court-ui/lib/ipfs.ts`. -/
def isIpfsCid (s : String) : Bool :=
  if isPrefixL "bafy".data s.data then true
  else if isPrefixL "Qm".data s.data && s.length = 46 && s.data.all isAlphaNum then true
  else false

/-- `fetchEvidenceContent`: the `Except.error` case models the thrown
`IPFS fetch failed` error. -/
def fetchEvidenceContent (fetch : String → Option String) (cid : String) :
    Except String String :=
  if (jsonParse cid).isSome then Except.ok cid
  else if isIpfsCid cid then
    match fetch cid with
    | some body => Except.ok body
    | none => Except.error "IPFS fetch failed"
  else Except.ok cid

/-- The resolution step of `evaluateDispute` (`src/index.ts` lines 326-339):
a thrown resolution error is caught and replaced by the literal sentinel
`"(failed to retrieve)"`. -/
def resolveWithSentinel (fetch : String → Option String) (cid : String) : String :=
  match fetchEvidenceContent fetch cid with
  | Except.ok c => c
  | Except.error _ => "(failed to retrieve)"

/-- JS `Map.set`: update in place if the key is present, else append. -/
def mapSet (m : List (String × String)) (k v : String) : List (String × String) :=
  if m.any (fun p => p.1 == k) then
    m.map (fun p => if p.1 == k then (k, v) else p)
  else m ++ [(k, v)]

/-- JS `Map.get` (`none` = `undefined`; keys are unique by construction). -/
def mapGet (m : List (String × String)) (k : String) : Option String :=
  (m.find? (fun p => p.1 == k)).map (fun p => p.2)

/-- The `evidenceContent` map built by `evaluateDispute` / the verify
endpoint: one `Map.set` per evidence entry, in ledger order. -/
def resolveEvidence (fetch : String → Option String) (evidence : List Evidence) :
    List (String × String) :=
  evidence.foldl (fun m e => mapSet m e.cid (resolveWithSentinel fetch e.cid)) []

/-! ## Commitment engine (`src/commitment.ts`)

`createCommitment` is a pure function of (prompt, seed, response).  The
keccak256 hash is an oracle `keccak : List Nat → Nat` over byte lists
(its value taken mod 2^256 wherever a width matters); `toBytes` is UTF-8
encoding; `encodePacked(["bytes32","bytes32","uint256"], ...)` is the
fixed-width big-endian concatenation `encodePacked3`. -/

/-- UTF-8 encoding of one scalar value. -/
def utf8Char (c : Char) : List Nat :=
  let n := c.toNat
  if n < 0x80 then [n]
  else if n < 0x800 then [0xC0 + n / 64, 0x80 + n % 64]
  else if n < 0x10000 then [0xE0 + n / 4096, 0x80 + n / 64 % 64, 0x80 + n % 64]
  else [0xF0 + n / 262144, 0x80 + n / 4096 % 64, 0x80 + n / 64 % 64, 0x80 + n % 64]

/-- `viem`'s `toBytes` on a string: UTF-8 bytes. -/
def utf8Encode (s : String) : List Nat :=
  s.data.foldr (fun c acc => utf8Char c ++ acc) []

/-- Big-endian encoding of `n mod 2^(8w)` on exactly `w` bytes. -/
def natToBeBytes (w n : Nat) : List Nat :=
  match w with
  | 0 => []
  | w + 1 => natToBeBytes w (n / 256) ++ [n % 256]

/-- `encodePacked(["bytes32", "bytes32", "uint256"], [a, b, s])`:
three fixed-width 32-byte fields, in that order. -/
def encodePacked3 (a b s : Nat) : List Nat :=
  natToBeBytes 32 a ++ natToBeBytes 32 b ++ natToBeBytes 32 s

structure Commitment where
  promptHash : Nat
  responseHash : Nat
  commitmentHash : Nat
  seed : Nat
deriving Repr, DecidableEq, Inhabited

/-- `createCommitment(prompt, seed, response)` from `src/commitment.ts`:
`promptHash = keccak256(toBytes(prompt))`,
`responseHash = keccak256(toBytes(response))`,
`commitmentHash = keccak256(encodePacked(["bytes32","bytes32","uint256"],
[promptHash, responseHash, BigInt(seed)]))`.  A pure function: no side
effects, no external calls beyond the hash itself. -/
def createCommitment (keccak : List Nat → Nat) (prompt : String) (seed : Nat)
    (response : String) : Commitment :=
  let promptHash := keccak (utf8Encode prompt)
  let responseHash := keccak (utf8Encode response)
  let commitmentHash := keccak (encodePacked3 promptHash responseHash seed)
  { promptHash := promptHash, responseHash := responseHash,
    commitmentHash := commitmentHash, seed := seed }

/-- Lowercase hex rendering on exactly `w` digits (for the `Hex` strings a
hash is displayed as in the arbiter's ruling JSON). -/
def natToHex (w n : Nat) : String :=
  match w with
  | 0 => ""
  | w + 1 => natToHex w (n / 16) ++ String.singleton ("0123456789abcdef".data.getD (n % 16) '0')

def hashToHex (n : Nat) : String := "0x" ++ natToHex 64 n

/-! ## ISO-8601 timestamps

`new Date(Number(timestamp) * 1000).toISOString()` for a whole-second
timestamp.  Civil-from-days by the standard era decomposition. -/

def pad2 (n : Nat) : String := if n < 10 then "0" ++ toString n else toString n

def pad4 (n : Nat) : String := padZeros (toString n) 4

def civilFromDays (z : Nat) : Nat × Nat × Nat :=
  let z' := z + 719468
  let era := z' / 146097
  let doe := z' % 146097
  let yoe := (doe - doe / 1460 + doe / 36524 - doe / 146096) / 365
  let y := yoe + era * 400
  let doy := doe - (365 * yoe + yoe / 4 - yoe / 100)
  let mp := (5 * doy + 2) / 153
  let d := doy - (153 * mp + 2) / 5 + 1
  let m := if mp < 10 then mp + 3 else mp - 9
  (if m ≤ 2 then y + 1 else y, m, d)

def toISOString (secs : Nat) : String :=
  let days := secs / 86400
  let rem := secs % 86400
  let ymd := civilFromDays days
  pad4 ymd.1 ++ "-" ++ pad2 ymd.2.1 ++ "-" ++ pad2 ymd.2.2 ++ "T" ++
    pad2 (rem / 3600) ++ ":" ++ pad2 (rem % 3600 / 60) ++ ":" ++ pad2 (rem % 60) ++ ".000Z"

/-! ## Prompt builder

The repository carries two versions of the prompt builder with the same
shape: `src/prompts.ts` (imported by `src/index.ts`) renders every entry
unconditionally, and the variant prompts module (the unnamed source file)
additionally truncates each entry's content at a per-entry cap and the
whole prompt at a total cap.  Both are embedded; each keeps its source
names inside its own namespace. -/

/-- `ROLE_LABELS[entry.role] ?? `Role(${entry.role})``: lookup with a loud
fallback label for an unknown role number. -/
def roleLabel (r : Nat) : String :=
  match r with
  | 0 => "Payer"
  | 1 => "Receiver"
  | 2 => "Arbiter"
  | _ => "Role(" ++ toString r ++ ")"

/-- The shared system prompt (identical text in both prompt modules). -/
def SYSTEM_PROMPT : String :=
  "You are a neutral payment dispute arbiter. You will be given evidence from a payer and a receiver about a disputed payment. Evaluate the evidence impartially and decide whether the payer deserves a refund.\n\nRules:\n- A refund should be approved if the payer did not receive what was promised, or the service was materially deficient.\n- A refund should be denied if the payer received the agreed-upon goods/services and the complaint is unsubstantiated.\n- Consider the strength, specificity, and consistency of evidence from both sides.\n\nYou MUST respond with ONLY a JSON object in this exact format:\n\x7b\n  \"decision\": \"approve\" | \"deny\",\n  \"reasoning\": \"<2-3 sentence explanation>\",\n  \"confidence\": <number between 0 and 1>\n\x7d"

def promptHeader : String := "# Dispute Evidence\n"

def promptFooter : String :=
  "---\n\nBased on the above evidence, provide your decision as JSON."

/-- JavaScript `Array.prototype.join(sep)`. -/
def joinWith (sep : String) : List String → String
  | [] => ""
  | [a] => a
  | a :: b :: rest => a ++ sep ++ joinWith sep (b :: rest)

namespace PromptsTs

/-- One rendered evidence section of `buildPrompt` (`src/prompts.ts`):
role label, submitter, ISO timestamp, CID, resolved content. -/
def renderEntry (evidenceContent : List (String × String)) (e : Evidence) : String :=
  "## " ++ roleLabel e.role ++ " (" ++ e.submitter ++ ")\n" ++
    "Submitted: " ++ toISOString e.timestamp ++ "\n" ++
    "CID: " ++ e.cid ++ "\n\n" ++
    ((mapGet evidenceContent e.cid).getD "(content unavailable)") ++ "\n"

def sections (evidence : List Evidence) (evidenceContent : List (String × String)) :
    List String :=
  promptHeader :: evidence.map (renderEntry evidenceContent) ++ [promptFooter]

/-- `buildPrompt` from `src/prompts.ts` (the module `src/index.ts` imports):
every evidence entry is rendered, in ledger order, with no size caps. -/
def buildPrompt (evidence : List Evidence) (evidenceContent : List (String × String)) :
    String :=
  joinWith "\n" (sections evidence evidenceContent)

end PromptsTs

namespace PromptsCapped

def MAX_EVIDENCE_CHARS_PER_ENTRY : Nat := 20000

def MAX_PROMPT_CHARS : Nat := 80000

def truncMarker : String := "\n\n[... truncated — evidence exceeded size limit]"

def promptTruncMarker : String := "\n\n[... prompt truncated to fit payload limit]"

/-- `truncate(text, maxLen)` of the capped prompts module. -/
def truncate (text : String) (maxLen : Nat) : String :=
  if text.length ≤ maxLen then text
  else String.mk (text.data.take maxLen) ++ truncMarker

/-- One rendered evidence section, with the per-entry content cap. -/
def renderEntry (evidenceContent : List (String × String)) (e : Evidence) : String :=
  "## " ++ roleLabel e.role ++ " (" ++ e.submitter ++ ")\n" ++
    "Submitted: " ++ toISOString e.timestamp ++ "\n" ++
    "CID: " ++ e.cid ++ "\n\n" ++
    truncate ((mapGet evidenceContent e.cid).getD "(content unavailable)")
      MAX_EVIDENCE_CHARS_PER_ENTRY ++ "\n"

def sections (evidence : List Evidence) (evidenceContent : List (String × String)) :
    List String :=
  promptHeader :: evidence.map (renderEntry evidenceContent) ++ [promptFooter]

/-- `buildPrompt` of the capped prompts module: per-entry truncation plus a
total-size cap with an explicit marker. -/
def buildPrompt (evidence : List Evidence) (evidenceContent : List (String × String)) :
    String :=
  let prompt := joinWith "\n" (sections evidence evidenceContent)
  if prompt.length > MAX_PROMPT_CHARS then
    String.mk (prompt.data.take MAX_PROMPT_CHARS) ++ promptTruncMarker
  else prompt

end PromptsCapped

/-! ## Decision parsing (`evaluateDispute` step 5, `src/index.ts` 359-370)

Strict `JSON.parse` first; on failure, the regex
`/\{[\s\S]*"decision"[\s\S]*"reasoning"[\s\S]*"confidence"[\s\S]*\}/`
is applied and its whole match parsed.  With every quantifier greedy, the
match (when one exists) spans from the first `{` of the text to the last
`}` lying at/after the earliest ordered occurrences of the three quoted
field names; `jsonMatchSpan` computes exactly that span. -/

def firstCharIdx (ch : Char) : List Char → Nat → Option Nat
  | [], _ => none
  | c :: cs, i => if c == ch then some i else firstCharIdx ch cs (i + 1)

def lastCharIdxAux (ch : Char) (pos : Nat) : List Char → Nat → Option Nat → Option Nat
  | [], _, best => best
  | c :: cs, i, best =>
    lastCharIdxAux ch pos cs (i + 1) (if c == ch && pos ≤ i then some i else best)

/-- The span (start index, end index, inclusive) matched by the decision
regex, if any. -/
def jsonMatchSpan (cs : List Char) : Option (Nat × Nat) :=
  match firstCharIdx '{' cs 0 with
  | none => none
  | some i =>
    match findSubstrAux "\"decision\"".data (cs.drop (i + 1)) 0 with
    | none => none
    | some d₀ =>
      let d := i + 1 + d₀
      match findSubstrAux "\"reasoning\"".data (cs.drop (d + 10)) 0 with
      | none => none
      | some r₀ =>
        let r := d + 10 + r₀
        match findSubstrAux "\"confidence\"".data (cs.drop (r + 11)) 0 with
        | none => none
        | some c₀ =>
          let cc := r + 11 + c₀
          match lastCharIdxAux '}' (cc + 12) cs 0 none with
          | none => none
          | some j => some (i, j)

/-- `displayContent.match(regex)`: the matched substring, if any. -/
def jsonMatch (s : String) : Option String :=
  match jsonMatchSpan s.data with
  | some (i, j) => some (String.mk ((s.data.drop i).take (j - i + 1)))
  | none => none

/-- Steps of the decision parse: strict `JSON.parse` of the whole display
text; on failure, regex extraction and `JSON.parse` of the whole matched
span (whose own parse failure throws a bare `SyntaxError`, not the
"Failed to parse" error); no match at all throws the fatal error carrying
the display text. -/
def parseDecision (displayContent : String) : Except String Json :=
  match jsonParse displayContent with
  | some j => Except.ok j
  | none =>
    match jsonMatch displayContent with
    | some m =>
      match jsonParse m with
      | some j => Except.ok j
      | none => Except.error "SyntaxError: Unexpected non-whitespace character after JSON"
    | none => Except.error ("Failed to parse AI response: " ++ displayContent)

/-! ## Decision engine (`evaluateDispute` step 6) -/

/-- `decision.decision === "approve"`: strict equality with the string. -/
def isApproveDecision : Option Json → Bool
  | some (Json.str s) => s == "approve"
  | _ => false

/-- `decision.confidence >= CONFIDENCE_THRESHOLD`: JS `>=` is false for an
`undefined` or non-numeric operand (numeric-string coercion never arises
for the outputs this system parses and is not modelled). -/
def confidenceMeets : Option Json → ℚ → Bool
  | some (Json.num q), t => decide (t ≤ q)
  | _, _ => false

/-- `decision.decision === "approve" && decision.confidence >= CONFIDENCE_THRESHOLD`. -/
def meetsThreshold (dj : Json) (threshold : ℚ) : Bool :=
  isApproveDecision (jsGet dj "decision") && confidenceMeets (jsGet dj "confidence") threshold

/-- The enacted on-chain outcome: `meetsThreshold ? "approve" : "deny"`. -/
def enactedOutcome (dj : Json) (threshold : ℚ) : String :=
  if meetsThreshold dj threshold then "approve" else "deny"

/-! ## Evaluation orchestrator (`evaluateDispute`, `src/index.ts` 316-427) -/

/-- The environment-derived configuration the orchestrator reads. -/
structure ArbiterConfig where
  confidenceThreshold : ℚ
  eigenaiSeed : Nat
  model : String
  arbiterAddress : String

/-- `ℚ` from a natural number without going through typeclass casts. -/
def natQ (n : Nat) : ℚ := mkRat (Int.ofNat n) 1

/-- `Math.floor(Math.random() * 10000)` given the `Math.random()` draw:
`⌊rnd · 10000⌋` computed on the fraction directly (for the draws of
`Math.random()`, which lie in `[0, 1)`, integer division of the scaled
numerator by the denominator is exactly the floor). -/
def drawSeed (rnd : ℚ) : Nat := ((Int.ofNat 10000 * rnd.num) / Int.ofNat rnd.den).toNat

/-- The `commitment` object inside the arbiter's ruling evidence JSON
(hashes rendered as 32-byte hex strings). -/
def commitmentJson (c : Commitment) : Json :=
  Json.obj [("commitmentHash", Json.str (hashToHex c.commitmentHash)),
            ("promptHash", Json.str (hashToHex c.promptHash)),
            ("responseHash", Json.str (hashToHex c.responseHash)),
            ("seed", Json.num (natQ c.seed))]

/-- The `arbiter-ruling` evidence value of step 7 (`JSON.stringify` omits
properties whose value is `undefined`). -/
def rulingJson (outcome : String) (dj : Json) (c : Commitment) (model : String) : Json :=
  Json.obj ([("type", Json.str "arbiter-ruling"), ("decision", Json.str outcome)]
    ++ (match jsGet dj "reasoning" with | some v => [("reasoning", v)] | none => [])
    ++ (match jsGet dj "confidence" with | some v => [("confidence", v)] | none => [])
    ++ [("commitment", commitmentJson c), ("model", Json.str model)])

/-- The success payload of `evaluateDispute` (transaction hashes, which are
produced by the chain, are not modelled). -/
structure EvaluateResult where
  decision : Option Json
  reasoning : Option Json
  confidence : Option Json
  outcome : String
  commitment : Commitment
  refundError : Option String
deriving Repr, Inhabited

/-- Result plus the dispute's on-ledger evidence list after the arbiter's
`submitEvidence` of step 7 (the ledger is append-only). -/
structure EvalOutcome where
  result : EvaluateResult
  ledgerAfter : List Evidence
deriving Repr, Inhabited

/-- Steps 6-8 of `evaluateDispute`, after a successfully parsed ruling:
apply the confidence threshold, assemble and submit the `arbiter-ruling`
evidence, submit the enacted decision, and (on approval) attempt the
refund, whose failure is caught and reported as a warning. -/
def mkEvalOutcome (cfg : ArbiterConfig) (commitment : Commitment) (dj : Json)
    (refundOk : Bool) (now : Nat) (evidence : List Evidence) : EvalOutcome :=
  let meets := meetsThreshold dj cfg.confidenceThreshold
  let outcome := if meets then "approve" else "deny"
  let evidenceCid := jsonStringify (rulingJson outcome dj commitment cfg.model)
  { result := {
      decision := jsGet dj "decision"
      reasoning := jsGet dj "reasoning"
      confidence := jsGet dj "confidence"
      outcome := outcome
      commitment := commitment
      refundError := if meets && !refundOk then some "Refund execution failed" else none }
    ledgerAfter := evidence ++ [⟨cfg.arbiterAddress, 2, now, evidenceCid⟩] }

/-- The pure core of `evaluateDispute`.  Oracles: `keccak` the hash,
`fetch` the content store, `rnd` the `Math.random()` draw, `modelFn` the
EigenAI chat completion returning the raw response content (`none` = failed
request), `refundOk` whether `executeRefundInEscrow` succeeds (its failure
is caught and reported as a warning, never a failure), `now` the chain
timestamp of the submitted arbiter evidence. -/
def evaluateDispute (cfg : ArbiterConfig) (keccak : List Nat → Nat)
    (fetch : String → Option String) (rnd : ℚ)
    (modelFn : String → String → Nat → Option String) (refundOk : Bool)
    (now : Nat) (evidence : List Evidence) : Except String EvalOutcome :=
  if evidence.length = 0 then Except.error "No evidence submitted for this dispute"
  else
    let evidenceContent := resolveEvidence fetch evidence
    let seed := drawSeed rnd
    let userPrompt := PromptsTs.buildPrompt evidence evidenceContent
    match modelFn SYSTEM_PROMPT userPrompt seed with
    | none => Except.error "EigenAI request failed"
    | some rawResponse =>
      let displayContent := stripTags rawResponse
      let commitment := createCommitment keccak userPrompt seed displayContent
      match parseDecision displayContent with
      | Except.error e => Except.error e
      | Except.ok dj =>
        match dj with
        | Json.null => Except.error "TypeError: cannot read properties of null"
        | _ => Except.ok (mkEvalOutcome cfg commitment dj refundOk now evidence)

/-! ## Dispute scheduler (`start`'s auto-evaluation poller,
`src/index.ts` 626-667) -/

/-- One iteration of the poll loop body, for one indexed dispute.
`allEvidence` is the ledger's evidence list for the dispute, `evalOk`
abstracts whether the awaited `evaluateDispute` call succeeded (its
failure modes — chain writes, model calls — are external I/O).  The key is
added to the evaluated set speculatively before evaluating and deleted
again when the evaluation throws.  Returns the updated set and whether
evaluation was invoked. -/
def tickOne (allEvidence : List Evidence) (evalOk : Bool)
    (evaluatedDisputes : List String) (disputeKey : String) : List String × Bool :=
  if evaluatedDisputes.contains disputeKey then (evaluatedDisputes, false)
  else
    let hasPayerEvidence := allEvidence.any (fun e => e.role == 0)
    let hasReceiverEvidence := allEvidence.any (fun e => e.role == 1)
    let hasArbiterEvidence := allEvidence.any (fun e => e.role == 2)
    if hasArbiterEvidence then (disputeKey :: evaluatedDisputes, false)
    else if !hasPayerEvidence || !hasReceiverEvidence then (evaluatedDisputes, false)
    else
      let speculative := disputeKey :: evaluatedDisputes
      if evalOk then (speculative, true) else (speculative.erase disputeKey, true)

/-- A whole scheduler tick: the loop over every indexed dispute, threading
the shared `evaluatedDisputes` set. -/
def tick (ledger : String → List Evidence) (evalOk : String → Bool)
    (evaluated : List String) (keys : List String) : List String :=
  keys.foldl (fun st key => (tickOne (ledger key) (evalOk key) st key).1) evaluated

/-! ## Replay verifier (`/api/verify`, `src/index.ts` 500-567) -/

/-- `parsed.commitment?.seed`, else `parsed.seed` (optional chaining:
a missing or non-object `commitment` yields `undefined`). -/
def seedFieldOf (p : Json) : Option Json :=
  match (jsGet p "commitment").bind (fun c => jsGet c "seed") with
  | some v => some v
  | none => jsGet p "seed"

/-- The seed-extraction loop over the arbiter evidence entries: the first
entry whose JSON carries a seed wins (with `commitment.seed` preferred over
a top-level `seed`); non-JSON entries and entries without either field are
skipped; `none` means no entry carried a seed. -/
def extractSeedVal : List Evidence → Option Json
  | [] => none
  | e :: rest =>
    match jsonParse e.cid with
    | none => extractSeedVal rest
    | some p =>
      match seedFieldOf p with
      | some v => some v
      | none => extractSeedVal rest

/-- Numeric value of a stored seed.  The rulings this arbiter writes store
the natural-number seed that was used; a seed of any other JSON shape is
not produced by this system and would make the original `BigInt(seed)`
conversion throw, modelled as `none`. -/
def seedToNat : Json → Option Nat
  | Json.num q => if q.den = 1 && decide (0 ≤ q.num) then some q.num.toNat else none
  | _ => none

structure ReplayOut where
  replayCommitment : Commitment
  displayContent : String
deriving Repr, Inhabited

/-- The replay path of `/api/verify`: split off the arbiter evidence,
extract the original seed from it (falling back to the configured
`EIGENAI_SEED`), resolve and rebuild the prompt from all non-arbiter
entries, re-invoke the model with that seed, and recompute the commitment
over the display-stripped response. -/
def replayVerify (cfg : ArbiterConfig) (keccak : List Nat → Nat)
    (fetch : String → Option String)
    (modelFn : String → String → Nat → Option String)
    (allEvidence : List Evidence) : Except String ReplayOut :=
  let arbiterEvidence := allEvidence.filter (fun e => e.role == 2)
  let evidence := allEvidence.filter (fun e => e.role != 2)
  let seedOpt :=
    match extractSeedVal arbiterEvidence with
    | some v => seedToNat v
    | none => some cfg.eigenaiSeed
  match seedOpt with
  | none => Except.error "TypeError: cannot convert seed to a BigInt"
  | some seed =>
    let evidenceContent := resolveEvidence fetch evidence
    let userPrompt := PromptsTs.buildPrompt evidence evidenceContent
    match modelFn SYSTEM_PROMPT userPrompt seed with
    | none => Except.error "EigenAI request failed"
    | some rawResponse =>
      let displayContent := stripTags rawResponse
      Except.ok {
        replayCommitment := createCommitment keccak userPrompt seed displayContent
        displayContent := displayContent }

/-- Modelled from the spec: the canonical evidence selection the spec
prescribes (the **first** entry per role, in ledger order).  No function of
the source implements this; it exists here only to compare the source's
behavior against the spec's words. -/
def canonicalFirstPerRole (evidence : List Evidence) : List Evidence :=
  evidence.foldl
    (fun acc e => if acc.any (fun x => x.role == e.role) then acc else acc ++ [e]) []

/-! ## Shared lemmas -/

theorem isApproveDecision_iff (o : Option Json) :
    isApproveDecision o = true ↔ o = some (Json.str "approve") := by
  cases o with
  | none => simp [isApproveDecision]
  | some j => cases j <;> simp [isApproveDecision]

theorem confidenceMeets_iff (o : Option Json) (t : ℚ) :
    confidenceMeets o t = true ↔ ∃ q, o = some (Json.num q) ∧ t ≤ q := by
  cases o with
  | none => simp [confidenceMeets]
  | some j => cases j <;> simp [confidenceMeets]

theorem meetsThreshold_iff (dj : Json) (t : ℚ) :
    meetsThreshold dj t = true ↔
      jsGet dj "decision" = some (Json.str "approve") ∧
      ∃ q, jsGet dj "confidence" = some (Json.num q) ∧ t ≤ q := by
  rw [meetsThreshold, Bool.and_eq_true, isApproveDecision_iff, confidenceMeets_iff]

/-- Inversion of a successful `evaluateDispute` run: the model was invoked
on the built prompt with the drawn seed, its display-stripped output parsed
to a non-null ruling, and the outcome is `mkEvalOutcome` of the commitment
over the display-stripped response. -/
theorem evaluateDispute_ok_inv {cfg : ArbiterConfig} {keccak : List Nat → Nat}
    {fetch : String → Option String} {rnd : ℚ}
    {modelFn : String → String → Nat → Option String} {refundOk : Bool}
    {now : Nat} {evidence : List Evidence} {out : EvalOutcome}
    (h : evaluateDispute cfg keccak fetch rnd modelFn refundOk now evidence = Except.ok out) :
    ∃ raw dj,
      modelFn SYSTEM_PROMPT
        (PromptsTs.buildPrompt evidence (resolveEvidence fetch evidence))
        (drawSeed rnd) = some raw ∧
      parseDecision (stripTags raw) = Except.ok dj ∧ dj ≠ Json.null ∧
      out = mkEvalOutcome cfg
        (createCommitment keccak
          (PromptsTs.buildPrompt evidence (resolveEvidence fetch evidence))
          (drawSeed rnd) (stripTags raw)) dj refundOk now evidence := by
  simp only [evaluateDispute] at h
  split at h
  · simp at h
  · split at h
    · simp at h
    · rename_i raw hmodel
      split at h
      · simp at h
      · rename_i dj hparse
        split at h
        · simp at h
        · rename_i hne
          exact ⟨raw, dj, hmodel, hparse, fun hnull => hne hnull,
            (Except.ok.injEq _ _).mp h |>.symm⟩

theorem enactedOutcome_eq_approve_iff (dj : Json) (t : ℚ) :
    enactedOutcome dj t = "approve" ↔ meetsThreshold dj t = true := by
  unfold enactedOutcome
  split
  · rename_i h; exact iff_of_true rfl h
  · rename_i h
    constructor
    · intro hcontra; exact absurd hcontra (by decide)
    · intro hm; exact absurd hm h

theorem enactedOutcome_ne_approve (dj : Json) (t : ℚ)
    (h : enactedOutcome dj t ≠ "approve") : enactedOutcome dj t = "deny" := by
  by_cases hm : meetsThreshold dj t = true
  · exact absurd (by unfold enactedOutcome; rw [if_pos hm]) h
  · unfold enactedOutcome; rw [if_neg hm]

/-! ## C1 -/

/-- **C1**: For every parsed model output with decision `d` and confidence
`c`, and every configured threshold `t`, the enacted on-chain outcome
computed by `evaluateDispute` is `"approve"` iff `d = "approve"` and
`c ≥ t`; in every other case (a denial, or an under-threshold approval) it
is `"deny"` — the threshold gates approval only, never denial. -/
theorem c1_threshold_gates_approval_only :
    (∀ (d r : String) (c t : ℚ),
      (enactedOutcome (Json.obj [("decision", Json.str d), ("reasoning", Json.str r),
          ("confidence", Json.num c)]) t = "approve" ↔ d = "approve" ∧ t ≤ c) ∧
      (d = "deny" →
        enactedOutcome (Json.obj [("decision", Json.str d), ("reasoning", Json.str r),
          ("confidence", Json.num c)]) t = "deny")) ∧
    (∀ cfg keccak fetch rnd modelFn refundOk now evidence out,
      evaluateDispute cfg keccak fetch rnd modelFn refundOk now evidence = Except.ok out →
      (out.result.outcome = "approve" ↔
        out.result.decision = some (Json.str "approve") ∧
        ∃ q, out.result.confidence = some (Json.num q) ∧ cfg.confidenceThreshold ≤ q) ∧
      (out.result.outcome ≠ "approve" → out.result.outcome = "deny")) := by
  constructor
  · intro d r c t
    have hget : jsGet (Json.obj [("decision", Json.str d), ("reasoning", Json.str r),
        ("confidence", Json.num c)]) "decision" = some (Json.str d) := rfl
    have hconf : jsGet (Json.obj [("decision", Json.str d), ("reasoning", Json.str r),
        ("confidence", Json.num c)]) "confidence" = some (Json.num c) := rfl
    constructor
    · rw [enactedOutcome_eq_approve_iff, meetsThreshold_iff, hget, hconf]
      simp
    · intro hd
      refine enactedOutcome_ne_approve _ _ ?_
      intro hc
      rw [enactedOutcome_eq_approve_iff, meetsThreshold_iff, hget, hconf] at hc
      obtain ⟨h1, -⟩ := hc
      rw [hd] at h1
      exact absurd ((Json.str.injEq _ _).mp ((Option.some.injEq _ _).mp h1)) (by decide)
  · intro cfg keccak fetch rnd modelFn refundOk now evidence out h
    obtain ⟨raw, dj, _, _, _, hout⟩ := evaluateDispute_ok_inv h
    subst hout
    constructor
    · show enactedOutcome dj cfg.confidenceThreshold = "approve" ↔
        jsGet dj "decision" = some (Json.str "approve") ∧
        ∃ q, jsGet dj "confidence" = some (Json.num q) ∧ cfg.confidenceThreshold ≤ q
      rw [enactedOutcome_eq_approve_iff, meetsThreshold_iff]
    · exact enactedOutcome_ne_approve dj cfg.confidenceThreshold

/-- Witness for C1 at concrete inputs: a confident approval is enacted as
`approve`; a very confident denial is still enacted as `deny`. -/
theorem c1_threshold_gates_approval_only_witness :
    enactedOutcome (Json.obj [("decision", Json.str "approve"), ("reasoning", Json.str "r"),
      ("confidence", Json.num (mkRat 9 10))]) (mkRat 7 10) = "approve" ∧
    enactedOutcome (Json.obj [("decision", Json.str "deny"), ("reasoning", Json.str "r"),
      ("confidence", Json.num (mkRat 99 100))]) (mkRat 7 10) = "deny" := by
  constructor
  · exact ((c1_threshold_gates_approval_only.1 "approve" "r" (mkRat 9 10) (mkRat 7 10)).1).mpr
      ⟨rfl, by decide⟩
  · exact (c1_threshold_gates_approval_only.1 "deny" "r" (mkRat 99 100) (mkRat 7 10)).2 rfl

/-! ## C3 -/

theorem natToBeBytes_length (w : Nat) : ∀ n, (natToBeBytes w n).length = w := by
  induction w with
  | zero => intro n; rfl
  | succ w ih => intro n; simp [natToBeBytes, ih]

/-- Value recovered from a big-endian byte list. -/
def beBytesToNat (l : List Nat) : Nat := l.foldl (fun a b => a * 256 + b) 0

theorem beBytesToNat_go (l : List Nat) : ∀ a, l.foldl (fun a b => a * 256 + b) a =
    a * 256 ^ l.length + l.foldl (fun a b => a * 256 + b) 0 := by
  induction l with
  | nil => intro a; simp
  | cons x l ih =>
    intro a
    rw [List.foldl_cons, List.foldl_cons, ih (a * 256 + x), ih (0 * 256 + x),
      List.length_cons]
    ring

theorem beBytesToNat_natToBeBytes (w : Nat) : ∀ n, beBytesToNat (natToBeBytes w n) = n % 256 ^ w := by
  induction w with
  | zero => intro n; simp [natToBeBytes, beBytesToNat, Nat.mod_one]
  | succ w ih =>
    intro n
    show beBytesToNat (natToBeBytes w (n / 256) ++ [n % 256]) = _
    unfold beBytesToNat
    rw [List.foldl_append, beBytesToNat_go [n % 256], pow_succ, mul_comm (256 ^ w) 256,
      Nat.mod_mul]
    show (beBytesToNat (natToBeBytes w (n / 256))) * 256 ^ 1 + (0 * 256 + n % 256) = _
    rw [ih (n / 256)]
    ring

theorem natToBeBytes_inj_mod (w n n' : Nat)
    (h : natToBeBytes w n = natToBeBytes w n') : n % 256 ^ w = n' % 256 ^ w := by
  rw [← beBytesToNat_natToBeBytes, ← beBytesToNat_natToBeBytes, h]

theorem encodePacked3_injective (a b s a' b' s' : Nat)
    (h : encodePacked3 a b s = encodePacked3 a' b' s') :
    a % 2 ^ 256 = a' % 2 ^ 256 ∧ b % 2 ^ 256 = b' % 2 ^ 256 ∧ s % 2 ^ 256 = s' % 2 ^ 256 := by
  have h256 : (256 : ℕ) ^ 32 = 2 ^ 256 := by norm_num
  unfold encodePacked3 at h
  rw [List.append_assoc, List.append_assoc] at h
  obtain ⟨ha, h₂⟩ := List.append_inj h (by rw [natToBeBytes_length, natToBeBytes_length])
  obtain ⟨hb, hs⟩ := List.append_inj h₂ (by rw [natToBeBytes_length, natToBeBytes_length])
  exact ⟨h256 ▸ natToBeBytes_inj_mod 32 a a' ha,
    h256 ▸ natToBeBytes_inj_mod 32 b b' hb,
    h256 ▸ natToBeBytes_inj_mod 32 s s' hs⟩

/-- **C3**: `createCommitment(prompt, seed, response)` is a pure function
with `promptHash = keccak(utf8 prompt)`, `responseHash = keccak(utf8
response)`, `commitmentHash = keccak(promptHash ‖ responseHash ‖ seed)`
over the fixed-width (3 × 32 bytes, unambiguous) packed encoding with the
fields in that order, and the returned `seed` equals the input; and the
response the orchestrator hashes is the display-stripped model output
(`stripTags raw`), not the raw provider envelope. -/
theorem c3_commitment_structure :
    (∀ (keccak : List Nat → Nat) prompt seed response,
      (createCommitment keccak prompt seed response).promptHash = keccak (utf8Encode prompt) ∧
      (createCommitment keccak prompt seed response).responseHash = keccak (utf8Encode response) ∧
      (createCommitment keccak prompt seed response).seed = seed ∧
      (createCommitment keccak prompt seed response).commitmentHash =
        keccak (encodePacked3 (keccak (utf8Encode prompt)) (keccak (utf8Encode response)) seed)) ∧
    (∀ a b s, (encodePacked3 a b s).length = 96) ∧
    (∀ a b s a' b' s', encodePacked3 a b s = encodePacked3 a' b' s' →
      a % 2 ^ 256 = a' % 2 ^ 256 ∧ b % 2 ^ 256 = b' % 2 ^ 256 ∧ s % 2 ^ 256 = s' % 2 ^ 256) ∧
    (∀ cfg keccak fetch rnd modelFn refundOk now evidence out,
      evaluateDispute cfg keccak fetch rnd modelFn refundOk now evidence = Except.ok out →
      ∃ raw, modelFn SYSTEM_PROMPT
          (PromptsTs.buildPrompt evidence (resolveEvidence fetch evidence)) (drawSeed rnd) =
          some raw ∧
        out.result.commitment = createCommitment keccak
          (PromptsTs.buildPrompt evidence (resolveEvidence fetch evidence))
          (drawSeed rnd) (stripTags raw)) := by
  refine ⟨fun keccak prompt seed response => ⟨rfl, rfl, rfl, rfl⟩, ?_, encodePacked3_injective, ?_⟩
  · intro a b s
    simp [encodePacked3, natToBeBytes_length]
  · intro cfg keccak fetch rnd modelFn refundOk now evidence out h
    obtain ⟨raw, dj, hmodel, -, -, hout⟩ := evaluateDispute_ok_inv h
    exact ⟨raw, hmodel, by rw [hout]; rfl⟩

/-! Shared concrete scenario (the spec's own worked example: both parties
submitted inline text evidence; the model approves with confidence 0.92
inside the EigenAI channel wrapper). -/

def wKeccak : List Nat → Nat := fun bs => bs.foldl (fun a b => (a * 256 + b + 1) % 2 ^ 256) 0

def wCfg : ArbiterConfig := ⟨mkRat 7 10, 42, "gpt-oss-120b-f16", "0xArbiter"⟩

def wPayer : Evidence := ⟨"0xPayer", 0, 0, "service never delivered"⟩

def wReceiver : Evidence := ⟨"0xReceiver", 1, 0, "delivered per logs"⟩

def wEvidence : List Evidence := [wPayer, wReceiver]

def wModelText : String :=
  "<|channel|>final<|message|>\x7b\"decision\":\"approve\",\"reasoning\":\"The receiver provided no logs.\",\"confidence\":0.92\x7d<|end|>"

def wModel : String → String → Nat → Option String := fun _ _ _ => some wModelText

def wOut : EvalOutcome :=
  match evaluateDispute wCfg wKeccak (fun _ => none) (mkRat 1 2) wModel true 7 wEvidence with
  | Except.ok o => o
  | Except.error _ => default

set_option maxRecDepth 40000 in
theorem wOut_spec :
    evaluateDispute wCfg wKeccak (fun _ => none) (mkRat 1 2) wModel true 7 wEvidence =
      Except.ok wOut := by rfl

/-- Witness for C3: the concrete successful evaluation's commitment is the
commitment over the built prompt, the drawn seed and the display-stripped
response. -/
theorem c3_commitment_structure_witness :
    ∃ raw, wModel SYSTEM_PROMPT
        (PromptsTs.buildPrompt wEvidence (resolveEvidence (fun _ => none) wEvidence))
        (drawSeed (mkRat 1 2)) = some raw ∧
      wOut.result.commitment = createCommitment wKeccak
        (PromptsTs.buildPrompt wEvidence (resolveEvidence (fun _ => none) wEvidence))
        (drawSeed (mkRat 1 2)) (stripTags raw) :=
  c3_commitment_structure.2.2.2 wCfg wKeccak (fun _ => none) (mkRat 1 2) wModel true 7
    wEvidence wOut wOut_spec

/-! ## C10 -/

/-- **C10**: For every evaluation that reaches the model invocation, the
seed passed to the model is `Math.floor(Math.random() * 10000)` — an
integer in `[0, 10000)` — drawn independently of the configured default
seed (`EIGENAI_SEED` is not read by `evaluateDispute` at all), and the
returned commitment records exactly this integer in its `seed` field. -/
theorem c10_fresh_random_seed (cfg : ArbiterConfig) (keccak : List Nat → Nat)
    (fetch : String → Option String) (rnd : ℚ)
    (modelFn : String → String → Nat → Option String) (refundOk : Bool)
    (now : Nat) (evidence : List Evidence)
    (h0 : 0 ≤ rnd) (h1 : rnd < 1) :
    drawSeed rnd < 10000 ∧
    (∀ modelFn', (∀ u p, modelFn' u p (drawSeed rnd) = modelFn u p (drawSeed rnd)) →
      evaluateDispute cfg keccak fetch rnd modelFn' refundOk now evidence =
        evaluateDispute cfg keccak fetch rnd modelFn refundOk now evidence) ∧
    (∀ s, evaluateDispute { cfg with eigenaiSeed := s } keccak fetch rnd modelFn refundOk
        now evidence =
      evaluateDispute cfg keccak fetch rnd modelFn refundOk now evidence) ∧
    (∀ out, evaluateDispute cfg keccak fetch rnd modelFn refundOk now evidence =
        Except.ok out →
      out.result.commitment.seed = drawSeed rnd) := by
  refine ⟨?_, ?_, ?_, ?_⟩
  · unfold drawSeed
    have hdenq : (0 : ℚ) < (rnd.den : ℚ) := by exact_mod_cast rnd.pos
    have hlt : rnd.num < (rnd.den : ℤ) := by
      rw [← Rat.num_div_den rnd, div_lt_one hdenq] at h1
      exact_mod_cast h1
    have hdiv : Int.ofNat 10000 * rnd.num / Int.ofNat rnd.den < 10000 := by
      refine (Int.ediv_lt_iff_lt_mul ?_).mpr ?_
      · exact Int.ofNat_pos.mpr rnd.pos
      · have : (10000 : ℤ) * rnd.num < 10000 * rnd.den := by
          exact mul_lt_mul_of_pos_left hlt (by norm_num)
        calc Int.ofNat 10000 * rnd.num = 10000 * rnd.num := rfl
          _ < 10000 * rnd.den := this
          _ = 10000 * Int.ofNat rnd.den := rfl
    generalize hx : Int.ofNat 10000 * rnd.num / Int.ofNat rnd.den = x at hdiv ⊢
    omega
  · intro modelFn' hagree
    simp only [evaluateDispute, hagree]
  · intro s
    rfl
  · intro out h
    obtain ⟨raw, dj, -, -, -, hout⟩ := evaluateDispute_ok_inv h
    rw [hout]; rfl

/-- Witness for C10 at the concrete draw `rnd = 1/2` on the shared
scenario. -/
theorem c10_fresh_random_seed_witness :
    drawSeed (mkRat 1 2) < 10000 ∧
    (∀ modelFn', (∀ u p, modelFn' u p (drawSeed (mkRat 1 2)) =
        wModel u p (drawSeed (mkRat 1 2))) →
      evaluateDispute wCfg wKeccak (fun _ => none) (mkRat 1 2) modelFn' true 7 wEvidence =
        evaluateDispute wCfg wKeccak (fun _ => none) (mkRat 1 2) wModel true 7 wEvidence) ∧
    (∀ s, evaluateDispute { wCfg with eigenaiSeed := s } wKeccak (fun _ => none) (mkRat 1 2)
        wModel true 7 wEvidence =
      evaluateDispute wCfg wKeccak (fun _ => none) (mkRat 1 2) wModel true 7 wEvidence) ∧
    (∀ out, evaluateDispute wCfg wKeccak (fun _ => none) (mkRat 1 2) wModel true 7 wEvidence =
        Except.ok out →
      out.result.commitment.seed = drawSeed (mkRat 1 2)) :=
  c10_fresh_random_seed wCfg wKeccak (fun _ => none) (mkRat 1 2) wModel true 7 wEvidence
    (by decide) (by decide)

/-! ## C6 -/

/-- A model output consisting of a complete ruling object followed by a
second, unrelated object. -/
def c6Text : String :=
  "\x7b\"decision\":\"approve\",\"reasoning\":\"ok\",\"confidence\":0.9\x7d \x7b\"x\":1\x7d"

set_option maxRecDepth 40000 in
/-- **C6 counterexample**: on `c6Text` the strict parse fails (trailing
content), and its first 56 characters are a well-formed `{...}` substring
carrying all three fields, which the claimed second stage would parse
successfully, yet the code's second stage — whose regex match extends
greedily to the *last* `}` — feeds an unparseable span to `JSON.parse` and
the evaluation fails with a bare syntax error (one that does not carry the
raw text). -/
theorem c6_counterexample :
    jsonParse c6Text = none ∧
    jsonParse (String.mk (c6Text.data.take 56)) =
      some (Json.obj [("decision", Json.str "approve"), ("reasoning", Json.str "ok"),
        ("confidence", Json.num (mkRat 9 10))]) ∧
    parseDecision c6Text =
      Except.error "SyntaxError: Unexpected non-whitespace character after JSON" ∧
    evaluateDispute wCfg wKeccak (fun _ => none) 0 (fun _ _ _ => some c6Text) true 7
        wEvidence =
      Except.error "SyntaxError: Unexpected non-whitespace character after JSON" :=
  ⟨rfl, rfl, rfl, rfl⟩

/-- **C6 (amended)**: parsing proceeds by ordered stages — first a strict
`JSON.parse` of the whole text; if that fails, the regex extracts the span
from the text's first `{` through ordered occurrences of `"decision"`,
`"reasoning"`, `"confidence"` to the *last* `}` (not the first well-formed
object substring), and that whole span is parsed; an unparseable span
raises a bare `SyntaxError`, while no span at all raises the fatal error
carrying the raw text.  In every failure case the evaluation propagates
the error, so it never silently defaults and no on-chain write occurs. -/
theorem c6_amended_parse_stages :
    (∀ s j, jsonParse s = some j → parseDecision s = Except.ok j) ∧
    (∀ s m, jsonParse s = none → jsonMatch s = some m →
      parseDecision s = (match jsonParse m with
        | some j => Except.ok j
        | none =>
          Except.error "SyntaxError: Unexpected non-whitespace character after JSON")) ∧
    (∀ s, jsonParse s = none → jsonMatch s = none →
      parseDecision s = Except.error ("Failed to parse AI response: " ++ s)) ∧
    (∀ cfg keccak fetch rnd modelFn refundOk now evidence raw e,
      evidence ≠ [] →
      modelFn SYSTEM_PROMPT
        (PromptsTs.buildPrompt evidence (resolveEvidence fetch evidence))
        (drawSeed rnd) = some raw →
      parseDecision (stripTags raw) = Except.error e →
      evaluateDispute cfg keccak fetch rnd modelFn refundOk now evidence =
        Except.error e) := by
  refine ⟨?_, ?_, ?_, ?_⟩
  · intro s j h
    unfold parseDecision
    rw [h]
  · intro s m h1 h2
    unfold parseDecision
    rw [h1, h2]
  · intro s h1 h2
    unfold parseDecision
    rw [h1, h2]
  · intro cfg keccak fetch rnd modelFn refundOk now evidence raw e hne hmodel hparse
    have hlen : ¬ (evidence.length = 0) := by
      simpa using hne
    simp only [evaluateDispute, if_neg hlen, hmodel, hparse]

/-- Witness for C6 (amended) at concrete texts: a strict-parse success and
a no-match fatal error carrying the raw text. -/
theorem c6_amended_parse_stages_witness :
    parseDecision "\x7b\"decision\":\"deny\",\"reasoning\":\"r\",\"confidence\":1\x7d" =
      Except.ok (Json.obj [("decision", Json.str "deny"), ("reasoning", Json.str "r"),
        ("confidence", Json.num 1)]) ∧
    parseDecision "no json at all" =
      Except.error ("Failed to parse AI response: no json at all") := by
  constructor
  · exact c6_amended_parse_stages.1 _ _ (by rfl)
  · exact c6_amended_parse_stages.2.2.1 _ (by rfl) (by rfl)

/-! ## C7 -/

theorem mapGet_nil (k : String) : mapGet [] k = none := rfl

theorem mapGet_cons (p : String × String) (m : List (String × String)) (k : String) :
    mapGet (p :: m) k = if p.1 == k then some p.2 else mapGet m k := by
  by_cases h : p.1 == k
  · simp [mapGet, List.find?_cons_of_pos, h]
  · rw [if_neg h]
    unfold mapGet
    rw [List.find?_cons_of_neg _ (by simpa using h)]

theorem mapGet_append (m l : List (String × String)) (k : String) :
    mapGet (m ++ l) k = match mapGet m k with
      | some v => some v
      | none => mapGet l k := by
  unfold mapGet
  rw [List.find?_append]
  cases h : List.find? (fun p => p.1 == k) m <;> simp [Option.orElse, h]

theorem anyKey_iff (m : List (String × String)) (k : String) :
    m.any (fun p => p.1 == k) = true ↔ mapGet m k ≠ none := by
  induction m with
  | nil => simp [mapGet_nil]
  | cons p m ih =>
    rw [List.any_cons, mapGet_cons]
    by_cases h : p.1 == k <;> simp [h, ih]

/-- The content map the orchestrator builds holds only canonical values:
each key maps to its own resolved content. -/
def CanonMap (fetch : String → Option String) (m : List (String × String)) : Prop :=
  ∀ p ∈ m, p.2 = resolveWithSentinel fetch p.1

theorem mapGet_canon (fetch : String → Option String) (m : List (String × String))
    (k : String) (hm : CanonMap fetch m) :
    mapGet m k = none ∨ mapGet m k = some (resolveWithSentinel fetch k) := by
  induction m with
  | nil => left; rfl
  | cons p m ih =>
    rw [mapGet_cons]
    by_cases h : p.1 == k
    · right
      rw [if_pos h]
      have h1 : p.1 = k := by simpa using h
      rw [hm p (List.mem_cons_self p m), h1]
    · rw [if_neg h]
      exact ih (fun q hq => hm q (List.mem_cons_of_mem p hq))

theorem map_update_canon (fetch : String → Option String) (m : List (String × String))
    (k : String) (hm : CanonMap fetch m) :
    m.map (fun p => if p.1 == k then (k, resolveWithSentinel fetch k) else p) = m := by
  induction m with
  | nil => rfl
  | cons p m ih =>
    rw [List.map_cons, ih (fun q hq => hm q (List.mem_cons_of_mem p hq))]
    by_cases h : p.1 == k
    · have h1 : p.1 = k := by simpa using h
      have h2 : p.2 = resolveWithSentinel fetch p.1 := hm p (List.mem_cons_self p m)
      rw [if_pos h, ← h1, ← h2]
    · rw [if_neg h]

theorem mapSet_canon_eq (fetch : String → Option String) (m : List (String × String))
    (k : String) (hm : CanonMap fetch m) :
    mapSet m k (resolveWithSentinel fetch k) =
      if m.any (fun p => p.1 == k) then m else m ++ [(k, resolveWithSentinel fetch k)] := by
  unfold mapSet
  by_cases h : m.any (fun p => p.1 == k)
  · rw [if_pos h, if_pos h, map_update_canon fetch m k hm]
  · rw [if_neg h, if_neg h]

theorem mapSet_canon_preserves (fetch : String → Option String)
    (m : List (String × String)) (k : String) (hm : CanonMap fetch m) :
    CanonMap fetch (mapSet m k (resolveWithSentinel fetch k)) := by
  rw [mapSet_canon_eq fetch m k hm]
  split
  · exact hm
  · intro p hp
    rcases List.mem_append.mp hp with h | h
    · exact hm p h
    · simp only [List.mem_singleton] at h
      subst h
      rfl

theorem mapSet_canon_get (fetch : String → Option String) (m : List (String × String))
    (k : String) (hm : CanonMap fetch m) :
    mapGet (mapSet m k (resolveWithSentinel fetch k)) k =
      some (resolveWithSentinel fetch k) := by
  rw [mapSet_canon_eq fetch m k hm]
  split
  · rename_i h
    rcases mapGet_canon fetch m k hm with ho | ho
    · exact absurd ho ((anyKey_iff m k).mp h)
    · exact ho
  · rename_i h
    have hnone : mapGet m k = none := by
      by_contra hne
      exact h ((anyKey_iff m k).mpr hne)
    rw [mapGet_append, hnone, mapGet_cons]
    simp

theorem mapSet_canon_persist (fetch : String → Option String)
    (m : List (String × String)) (k k' : String) (v : String) (hm : CanonMap fetch m)
    (h : mapGet m k' = some v) :
    mapGet (mapSet m k (resolveWithSentinel fetch k)) k' = some v := by
  rw [mapSet_canon_eq fetch m k hm]
  split
  · exact h
  · rw [mapGet_append, h]

theorem resolveEvidence_go_canon (fetch : String → Option String) (ev : List Evidence) :
    ∀ m, CanonMap fetch m →
      CanonMap fetch (ev.foldl
        (fun m e => mapSet m e.cid (resolveWithSentinel fetch e.cid)) m) := by
  induction ev with
  | nil => intro m hm; exact hm
  | cons e ev ih =>
    intro m hm
    rw [List.foldl_cons]
    exact ih _ (mapSet_canon_preserves fetch m e.cid hm)

theorem resolveEvidence_go_persist (fetch : String → Option String) (ev : List Evidence) :
    ∀ m k v, CanonMap fetch m → mapGet m k = some v →
      mapGet (ev.foldl
        (fun m e => mapSet m e.cid (resolveWithSentinel fetch e.cid)) m) k = some v := by
  induction ev with
  | nil => intro m k v _ h; exact h
  | cons e ev ih =>
    intro m k v hm h
    rw [List.foldl_cons]
    exact ih _ k v (mapSet_canon_preserves fetch m e.cid hm)
      (mapSet_canon_persist fetch m e.cid k v hm h)

theorem mapGet_resolveEvidence_go (fetch : String → Option String) (ev : List Evidence) :
    ∀ m, CanonMap fetch m → ∀ e ∈ ev,
      mapGet (ev.foldl
        (fun m e => mapSet m e.cid (resolveWithSentinel fetch e.cid)) m) e.cid =
        some (resolveWithSentinel fetch e.cid) := by
  induction ev with
  | nil => intro m _ e he; cases he
  | cons e' ev ih =>
    intro m hm e he
    rw [List.foldl_cons]
    rcases List.mem_cons.mp he with h | h
    · subst h
      exact resolveEvidence_go_persist fetch ev _ e.cid _
        (mapSet_canon_preserves fetch m e.cid hm)
        (mapSet_canon_get fetch m e.cid hm)
    · exact ih _ (mapSet_canon_preserves fetch m e'.cid hm) e h

/-- Every processed evidence entry's identifier resolves in the built map. -/
theorem mapGet_resolveEvidence (fetch : String → Option String) (ev : List Evidence)
    (e : Evidence) (he : e ∈ ev) :
    mapGet (resolveEvidence fetch ev) e.cid = some (resolveWithSentinel fetch e.cid) :=
  mapGet_resolveEvidence_go fetch ev [] (fun p hp => by cases hp) e he

/-- **C7**: Evidence resolution never aborts an evaluation: a JSON
identifier resolves to itself verbatim; a recognized content-address is
fetched, and a failed fetch yields the literal sentinel
`"(failed to retrieve)"` instead of an error escaping the resolution step;
any other string is used as-is.  Every entry therefore has an entry in the
content map (the prompt renders the sentinel in a failed entry's section),
and for any fetch oracle — however broken — the evaluation still reaches
the model and completes. -/
theorem c7_resolution_never_aborts :
    (∀ fetch cid, (jsonParse cid).isSome = true → resolveWithSentinel fetch cid = cid) ∧
    (∀ fetch cid, (jsonParse cid).isSome = false → isIpfsCid cid = true →
      fetch cid = none → resolveWithSentinel fetch cid = "(failed to retrieve)") ∧
    (∀ fetch cid body, (jsonParse cid).isSome = false → isIpfsCid cid = true →
      fetch cid = some body → resolveWithSentinel fetch cid = body) ∧
    (∀ fetch cid, (jsonParse cid).isSome = false → isIpfsCid cid = false →
      resolveWithSentinel fetch cid = cid) ∧
    (∀ fetch ev (e : Evidence), e ∈ ev →
      mapGet (resolveEvidence fetch ev) e.cid = some (resolveWithSentinel fetch e.cid)) ∧
    (∀ cfg keccak fetch rnd modelFn refundOk now evidence raw dj,
      evidence ≠ [] →
      modelFn SYSTEM_PROMPT
        (PromptsTs.buildPrompt evidence (resolveEvidence fetch evidence))
        (drawSeed rnd) = some raw →
      parseDecision (stripTags raw) = Except.ok dj → dj ≠ Json.null →
      (evaluateDispute cfg keccak fetch rnd modelFn refundOk now evidence).isOk = true) := by
  refine ⟨?_, ?_, ?_, ?_, mapGet_resolveEvidence, ?_⟩
  · intro fetch cid h
    unfold resolveWithSentinel fetchEvidenceContent
    rw [if_pos h]
  · intro fetch cid h hip hf
    unfold resolveWithSentinel fetchEvidenceContent
    rw [if_neg (by simp [h]), if_pos hip, hf]
  · intro fetch cid body h hip hf
    unfold resolveWithSentinel fetchEvidenceContent
    rw [if_neg (by simp [h]), if_pos hip, hf]
  · intro fetch cid h hip
    unfold resolveWithSentinel fetchEvidenceContent
    rw [if_neg (by simp [h]), if_neg (by simp [hip])]
  · intro cfg keccak fetch rnd modelFn refundOk now evidence raw dj hne hmodel hparse hdj
    have hlen : ¬ (evidence.length = 0) := by simpa using hne
    simp only [evaluateDispute, if_neg hlen, hmodel, hparse]
    cases dj <;> first | exact absurd rfl hdj | rfl

/-- Witness for C7: with a dead fetch oracle, an unreachable IPFS CID
renders as the sentinel, free text passes through, and an evaluation whose
third evidence entry is unfetchable still completes. -/
theorem c7_resolution_never_aborts_witness :
    resolveWithSentinel (fun _ => none) "QmXyxi3LYRb33bThaHLtotFxcG4FXnDowC2d5EjwYqE4iR" =
      "(failed to retrieve)" ∧
    resolveWithSentinel (fun _ => none) "free text evidence" = "free text evidence" ∧
    (evaluateDispute wCfg wKeccak (fun _ => none) (mkRat 1 2) wModel true 7
      (wEvidence ++ [⟨"0xThird", 1, 3, "QmXyxi3LYRb33bThaHLtotFxcG4FXnDowC2d5EjwYqE4iR"⟩])).isOk
      = true := by
  refine ⟨?_, ?_, ?_⟩
  · exact c7_resolution_never_aborts.2.1 (fun _ => none) _ (by rfl) (by rfl) rfl
  · exact c7_resolution_never_aborts.2.2.2.1 (fun _ => none) _ (by rfl) (by rfl)
  · exact c7_resolution_never_aborts.2.2.2.2.2 wCfg wKeccak (fun _ => none) (mkRat 1 2)
      wModel true 7 _ wModelText
      (Json.obj [("decision", Json.str "approve"),
        ("reasoning", Json.str "The receiver provided no logs."),
        ("confidence", Json.num (mkRat 92 100))])
      (by simp [wEvidence]) (by rfl) (by rfl) (fun h => nomatch h)

/-! ## C8 -/

/-- **C8**: In the capped prompt builder, each entry's resolved content is
truncated at the fixed per-entry cap with an explicit marker appended
exactly when it exceeds the cap; the whole prompt is capped at the fixed
total budget with an explicit marker on truncation (so its length never
exceeds budget + marker); sections are never dropped (one per entry plus
header and footer); and an entry with an unknown role is still rendered,
under the loud fallback label `Role(<n>)`. -/
theorem c8_prompt_caps_and_loud_labels :
    (∀ t : String, t.length ≤ PromptsCapped.MAX_EVIDENCE_CHARS_PER_ENTRY →
      PromptsCapped.truncate t PromptsCapped.MAX_EVIDENCE_CHARS_PER_ENTRY = t) ∧
    (∀ t : String, PromptsCapped.MAX_EVIDENCE_CHARS_PER_ENTRY < t.length →
      PromptsCapped.truncate t PromptsCapped.MAX_EVIDENCE_CHARS_PER_ENTRY =
        String.mk (t.data.take PromptsCapped.MAX_EVIDENCE_CHARS_PER_ENTRY) ++
          PromptsCapped.truncMarker) ∧
    (∀ m (e : Evidence) c, mapGet m e.cid = some c →
      PromptsCapped.renderEntry m e =
        "## " ++ roleLabel e.role ++ " (" ++ e.submitter ++ ")\n" ++
          "Submitted: " ++ toISOString e.timestamp ++ "\n" ++
          "CID: " ++ e.cid ++ "\n\n" ++
          PromptsCapped.truncate c PromptsCapped.MAX_EVIDENCE_CHARS_PER_ENTRY ++ "\n") ∧
    (∀ es m, (PromptsCapped.buildPrompt es m).length ≤
      PromptsCapped.MAX_PROMPT_CHARS + PromptsCapped.promptTruncMarker.length) ∧
    (∀ es m, PromptsCapped.MAX_PROMPT_CHARS <
        (joinWith "\n" (PromptsCapped.sections es m)).length →
      PromptsCapped.buildPrompt es m =
        String.mk ((joinWith "\n" (PromptsCapped.sections es m)).data.take
          PromptsCapped.MAX_PROMPT_CHARS) ++ PromptsCapped.promptTruncMarker) ∧
    (∀ es m, (PromptsCapped.sections es m).length = es.length + 2) ∧
    (∀ m (e : Evidence), 3 ≤ e.role → ∃ rest : String,
      PromptsCapped.renderEntry m e = "## Role(" ++ toString e.role ++ ")" ++ rest) := by
  refine ⟨?_, ?_, ?_, ?_, ?_, ?_, ?_⟩
  · intro t h
    unfold PromptsCapped.truncate
    rw [if_pos h]
  · intro t h
    unfold PromptsCapped.truncate
    rw [if_neg (not_le.mpr h)]
  · intro m e c h
    unfold PromptsCapped.renderEntry
    rw [h]
    rfl
  · intro es m
    simp only [PromptsCapped.buildPrompt]
    split
    · rename_i h
      rw [String.length_append]
      have : (((joinWith "\n" (PromptsCapped.sections es m)).data.take
          PromptsCapped.MAX_PROMPT_CHARS)).length ≤ PromptsCapped.MAX_PROMPT_CHARS := by
        rw [List.length_take]
        exact min_le_left _ _
      exact Nat.add_le_add this (le_refl _)
    · rename_i h
      exact le_trans (le_of_not_lt h) (Nat.le_add_right _ _)
  · intro es m h
    simp only [PromptsCapped.buildPrompt]
    rw [if_pos h]
  · intro es m
    simp [PromptsCapped.sections]
  · intro m e h
    obtain ⟨k, hk⟩ : ∃ k, e.role = k + 3 := ⟨e.role - 3, by omega⟩
    refine ⟨" (" ++ e.submitter ++ ")\n" ++ "Submitted: " ++ toISOString e.timestamp ++
      "\n" ++ "CID: " ++ e.cid ++ "\n\n" ++
      PromptsCapped.truncate ((mapGet m e.cid).getD "(content unavailable)")
        PromptsCapped.MAX_EVIDENCE_CHARS_PER_ENTRY ++ "\n", ?_⟩
    unfold PromptsCapped.renderEntry
    rw [hk]
    have hlbl : roleLabel (k + 3) = "Role(" ++ toString (k + 3) ++ ")" := rfl
    rw [hlbl]
    simp only [← String.append_assoc]
    rfl

/-- Witness for C8: a content string one character over the per-entry cap
is truncated with the marker; a short one is untouched; an unknown role 7
is rendered with the loud fallback label. -/
theorem c8_prompt_caps_and_loud_labels_witness :
    PromptsCapped.truncate (String.mk (List.replicate 20001 'a'))
        PromptsCapped.MAX_EVIDENCE_CHARS_PER_ENTRY =
      String.mk (List.replicate 20000 'a') ++ PromptsCapped.truncMarker ∧
    PromptsCapped.truncate "short" PromptsCapped.MAX_EVIDENCE_CHARS_PER_ENTRY = "short" ∧
    ∃ rest : String, PromptsCapped.renderEntry [] ⟨"0xSub", 7, 0, "cid"⟩ =
      "## Role(7)" ++ rest := by
  refine ⟨?_, ?_, ?_⟩
  · have hlen : (String.mk (List.replicate 20001 'a')).length = 20001 := by
      rw [show (String.mk (List.replicate 20001 'a')).length =
        (List.replicate 20001 'a').length from rfl, List.length_replicate]
    have h := c8_prompt_caps_and_loud_labels.2.1 (String.mk (List.replicate 20001 'a'))
      (by rw [hlen]; norm_num [PromptsCapped.MAX_EVIDENCE_CHARS_PER_ENTRY])
    rw [h]
    have htake : (List.replicate 20001 'a').take 20000 = List.replicate 20000 'a' := by
      rw [List.take_replicate]
      norm_num
    simp only [PromptsCapped.MAX_EVIDENCE_CHARS_PER_ENTRY]
    rw [htake]
  · exact c8_prompt_caps_and_loud_labels.1 "short"
      (by rw [show ("short" : String).length = 5 from rfl]
          norm_num [PromptsCapped.MAX_EVIDENCE_CHARS_PER_ENTRY])
  · obtain ⟨rest, hrest⟩ := c8_prompt_caps_and_loud_labels.2.2.2.2.2.2 []
      ⟨"0xSub", 7, 0, "cid"⟩ (by norm_num)
    exact ⟨rest, hrest⟩

/-! ## C2 -/

theorem joinWith_cons_cons (sep a b : String) (rest : List String) :
    joinWith sep (a :: b :: rest) = a ++ sep ++ joinWith sep (b :: rest) := rfl

theorem joinWith_length_cons (sep a : String) (l : List String) (hl : l ≠ []) :
    (joinWith sep (a :: l)).length = a.length + sep.length + (joinWith sep l).length := by
  cases l with
  | nil => exact absurd rfl hl
  | cons b rest =>
    rw [joinWith_cons_cons, String.length_append, String.length_append]

theorem joinWith_length_insert (sep : String) :
    ∀ (L : List String) (x y : String) (ys : List String),
    (joinWith sep (L ++ x :: y :: ys)).length =
      (joinWith sep (L ++ y :: ys)).length + x.length + sep.length := by
  intro L
  induction L with
  | nil =>
    intro x y ys
    rw [List.nil_append, List.nil_append, joinWith_length_cons sep x (y :: ys) (by simp)]
    omega
  | cons a L ih =>
    intro x y ys
    rw [List.cons_append, List.cons_append,
      joinWith_length_cons sep a (L ++ x :: y :: ys) (by simp),
      joinWith_length_cons sep a (L ++ y :: ys) (by simp), ih x y ys]
    omega

set_option maxRecDepth 40000 in
/-- **C2 counterexample**: re-submitting the payer's evidence entry (same
role, same identifier) appends another rendered section, so the prompt
built for the dispute changes — in both prompt-builder variants. -/
theorem c2_counterexample :
    PromptsTs.buildPrompt (wEvidence ++ [wPayer])
        (resolveEvidence (fun _ => none) (wEvidence ++ [wPayer])) ≠
      PromptsTs.buildPrompt wEvidence (resolveEvidence (fun _ => none) wEvidence) ∧
    PromptsCapped.buildPrompt (wEvidence ++ [wPayer])
        (resolveEvidence (fun _ => none) (wEvidence ++ [wPayer])) ≠
      PromptsCapped.buildPrompt wEvidence (resolveEvidence (fun _ => none) wEvidence) := by
  constructor <;> decide

/-- **C2 (amended)**: the evaluation renders *every* evidence entry in
ledger order, duplicates per role included: appending any entry — in
particular a duplicate of a role already present — appends another
rendered section and changes the built prompt (unconditionally in the
uncapped builder `evaluateDispute` uses; in the capped builder whenever
the enlarged prompt is still within the total cap). -/
theorem c2_amended_every_entry_rendered :
    (∀ es m (e : Evidence), PromptsTs.buildPrompt (es ++ [e]) m ≠
      PromptsTs.buildPrompt es m) ∧
    (∀ es m, (PromptsTs.sections es m).length = es.length + 2) ∧
    (∀ es m (e : Evidence),
      (joinWith "\n" (PromptsCapped.sections (es ++ [e]) m)).length ≤
        PromptsCapped.MAX_PROMPT_CHARS →
      PromptsCapped.buildPrompt (es ++ [e]) m ≠ PromptsCapped.buildPrompt es m) := by
  have hinsTs : ∀ es (m : List (String × String)) (e : Evidence),
      (joinWith "\n" (PromptsTs.sections (es ++ [e]) m)).length =
        (joinWith "\n" (PromptsTs.sections es m)).length +
          (PromptsTs.renderEntry m e).length + 1 := by
    intro es m e
    have h1 : PromptsTs.sections (es ++ [e]) m =
        (promptHeader :: es.map (PromptsTs.renderEntry m)) ++
          PromptsTs.renderEntry m e :: promptFooter :: [] := by
      simp [PromptsTs.sections]
    have h2 : PromptsTs.sections es m =
        (promptHeader :: es.map (PromptsTs.renderEntry m)) ++ promptFooter :: [] := by
      simp [PromptsTs.sections]
    rw [h1, h2, joinWith_length_insert, show ("\n" : String).length = 1 from rfl]
  have hinsC : ∀ es (m : List (String × String)) (e : Evidence),
      (joinWith "\n" (PromptsCapped.sections (es ++ [e]) m)).length =
        (joinWith "\n" (PromptsCapped.sections es m)).length +
          (PromptsCapped.renderEntry m e).length + 1 := by
    intro es m e
    have h1 : PromptsCapped.sections (es ++ [e]) m =
        (promptHeader :: es.map (PromptsCapped.renderEntry m)) ++
          PromptsCapped.renderEntry m e :: promptFooter :: [] := by
      simp [PromptsCapped.sections]
    have h2 : PromptsCapped.sections es m =
        (promptHeader :: es.map (PromptsCapped.renderEntry m)) ++ promptFooter :: [] := by
      simp [PromptsCapped.sections]
    rw [h1, h2, joinWith_length_insert, show ("\n" : String).length = 1 from rfl]
  refine ⟨?_, ?_, ?_⟩
  · intro es m e heq
    have hlen := congrArg String.length heq
    rw [PromptsTs.buildPrompt, PromptsTs.buildPrompt] at hlen
    rw [hinsTs es m e] at hlen
    omega
  · intro es m
    simp [PromptsTs.sections]
  · intro es m e hcap heq
    have hins := hinsC es m e
    have hcap' : (joinWith "\n" (PromptsCapped.sections es m)).length ≤
        PromptsCapped.MAX_PROMPT_CHARS := by omega
    have hb1 : PromptsCapped.buildPrompt (es ++ [e]) m =
        joinWith "\n" (PromptsCapped.sections (es ++ [e]) m) := by
      simp only [PromptsCapped.buildPrompt]
      rw [if_neg (by omega)]
    have hb0 : PromptsCapped.buildPrompt es m =
        joinWith "\n" (PromptsCapped.sections es m) := by
      simp only [PromptsCapped.buildPrompt]
      rw [if_neg (by omega)]
    rw [hb1, hb0] at heq
    have hlen := congrArg String.length heq
    omega

set_option maxRecDepth 40000 in
/-- Witness for C2 (amended) at the concrete duplicate scenario (capped
branch: the prompt stays far below the total cap). -/
theorem c2_amended_every_entry_rendered_witness :
    PromptsTs.buildPrompt (wEvidence ++ [wPayer])
        (resolveEvidence (fun _ => none) wEvidence) ≠
      PromptsTs.buildPrompt wEvidence (resolveEvidence (fun _ => none) wEvidence) ∧
    PromptsCapped.buildPrompt (wEvidence ++ [wPayer])
        (resolveEvidence (fun _ => none) wEvidence) ≠
      PromptsCapped.buildPrompt wEvidence (resolveEvidence (fun _ => none) wEvidence) := by
  constructor
  · exact c2_amended_every_entry_rendered.1 wEvidence
      (resolveEvidence (fun _ => none) wEvidence) wPayer
  · exact c2_amended_every_entry_rendered.2.2 wEvidence
      (resolveEvidence (fun _ => none) wEvidence) wPayer (by decide)

/-! ## C4 -/

/-- **C4**: In each tick, for an indexed dispute not yet marked evaluated:
an existing Arbiter-role entry marks it Done without invoking evaluation;
evaluation is invoked exactly when Payer and Receiver entries are present
and no Arbiter entry exists; and the key — added speculatively before the
evaluation — is removed again when the evaluation fails, so a failed
dispute stays eligible for retry, while a successful one stays marked. -/
theorem c4_scheduler_tick_guards (allEvidence : List Evidence) (evalOk : Bool)
    (evaluated : List String) (key : String)
    (hkey : evaluated.contains key = false) :
    (allEvidence.any (fun e => e.role == 2) = true →
      tickOne allEvidence evalOk evaluated key = (key :: evaluated, false)) ∧
    ((tickOne allEvidence evalOk evaluated key).2 = true ↔
      allEvidence.any (fun e => e.role == 2) = false ∧
      allEvidence.any (fun e => e.role == 0) = true ∧
      allEvidence.any (fun e => e.role == 1) = true) ∧
    ((tickOne allEvidence evalOk evaluated key).2 = true → evalOk = false →
      (tickOne allEvidence evalOk evaluated key).1 = evaluated) ∧
    ((tickOne allEvidence evalOk evaluated key).2 = true → evalOk = true →
      key ∈ (tickOne allEvidence evalOk evaluated key).1) := by
  have hmem : key ∉ evaluated := by simpa using hkey
  by_cases hA : allEvidence.any (fun e => e.role == 2) = true
  · have ht : tickOne allEvidence evalOk evaluated key = (key :: evaluated, false) := by
      simp [tickOne, hmem, hA]
    rw [ht]
    simp [hA]
  · have hA' : allEvidence.any (fun e => e.role == 2) = false := by
      simpa using hA
    by_cases hP : allEvidence.any (fun e => e.role == 0) = true
    · by_cases hR : allEvidence.any (fun e => e.role == 1) = true
      · by_cases hE : evalOk = true
        · subst hE
          have ht : tickOne allEvidence true evaluated key = (key :: evaluated, true) := by
            simp [tickOne, hmem, hA', hP, hR]
          rw [ht]
          exact ⟨fun h => absurd h hA, by simp [hA', hP, hR], by simp,
            fun _ _ => List.mem_cons_self key evaluated⟩
        · have hE' : evalOk = false := by
            simpa using hE
          subst hE'
          have ht : tickOne allEvidence false evaluated key = (evaluated, true) := by
            simp [tickOne, hmem, hA', hP, hR]
          rw [ht]
          exact ⟨fun h => absurd h hA, by simp [hA', hP, hR], fun _ _ => rfl,
            fun _ h => absurd h (by simp)⟩
      · have hR' : allEvidence.any (fun e => e.role == 1) = false := by
          simpa using hR
        have ht : tickOne allEvidence evalOk evaluated key = (evaluated, false) := by
          simp [tickOne, hmem, hA', hR']
        rw [ht]
        exact ⟨fun h => absurd h hA, by simp [hR'], fun h => absurd h (by simp),
          fun h => absurd h (by simp)⟩
    · have hP' : allEvidence.any (fun e => e.role == 0) = false := by
        simpa using hP
      have ht : tickOne allEvidence evalOk evaluated key = (evaluated, false) := by
        simp [tickOne, hmem, hA', hP']
      rw [ht]
      exact ⟨fun h => absurd h hA, by simp [hP'], fun h => absurd h (by simp),
        fun h => absurd h (by simp)⟩

/-- Witness for C4 at concrete inputs: a dispute with both parties'
evidence and no Arbiter entry whose evaluation fails is invoked but left
eligible for retry. -/
theorem c4_scheduler_tick_guards_witness :
    ((tickOne wEvidence false [] "dispute-1").2 = true ↔
      (wEvidence.any (fun e => e.role == 2) = false ∧
       wEvidence.any (fun e => e.role == 0) = true ∧
       wEvidence.any (fun e => e.role == 1) = true)) ∧
    ((tickOne wEvidence false [] "dispute-1").2 = true → false = false →
      (tickOne wEvidence false [] "dispute-1").1 = []) := by
  have h := c4_scheduler_tick_guards wEvidence false [] "dispute-1" (by rfl)
  exact ⟨h.2.1, h.2.2.1⟩

/-! ## C5 -/

/-- An arbiter ruling already on the ledger (written by another trigger). -/
def c5Arb : Evidence :=
  ⟨"0xOtherArbiterRun", 2, 5,
    "\x7b\"type\":\"arbiter-ruling\",\"decision\":\"deny\",\"commitment\":\x7b\"seed\":7\x7d\x7d"⟩

def c5Ledger : List Evidence := [wPayer, wReceiver, c5Arb]

def c5Out : EvalOutcome :=
  match evaluateDispute wCfg wKeccak (fun _ => none) (mkRat 1 2) wModel true 9 c5Ledger with
  | Except.ok o => o
  | Except.error _ => default

set_option maxRecDepth 80000 in
/-- **C5 counterexample**: the manual `/api/evaluate` path calls
`evaluateDispute` with no existence check for an Arbiter entry: on a
dispute that already carries one Arbiter ruling, it succeeds and writes a
second one — two Arbiter evidence entries end up on the ledger, so not
every writer is guarded and more than one ruling is enacted. -/
theorem c5_counterexample :
    (c5Ledger.filter (fun e => e.role == 2)).length = 1 ∧
    evaluateDispute wCfg wKeccak (fun _ => none) (mkRat 1 2) wModel true 9 c5Ledger =
      Except.ok c5Out ∧
    (c5Out.ledgerAfter.filter (fun e => e.role == 2)).length = 2 :=
  ⟨rfl, rfl, rfl⟩

theorem mkEvalOutcome_ledgerAfter (cfg : ArbiterConfig) (com : Commitment) (dj : Json)
    (refundOk : Bool) (now : Nat) (evidence : List Evidence) :
    (mkEvalOutcome cfg com dj refundOk now evidence).ledgerAfter =
      evidence ++ [⟨cfg.arbiterAddress, 2, now,
        jsonStringify (rulingJson
          (if meetsThreshold dj cfg.confidenceThreshold then "approve" else "deny")
          dj com cfg.model)⟩] := rfl

/-- **C5 (amended)**: only the scheduler's automatic path is guarded: a
tick skips (marks Done without invoking) any dispute that already has an
Arbiter entry, so the poller enacts at most one ruling per dispute; but
`evaluateDispute` itself — the manual `/api/evaluate` path — performs no
existence check and appends exactly one more Arbiter evidence entry on
every successful run, so concurrent or repeated manual invocations can
place multiple Arbiter entries on the ledger. -/
theorem c5_amended_guard_only_in_scheduler :
    (∀ allEvidence evalOk evaluated key,
      evaluated.contains key = false →
      allEvidence.any (fun e => (e : Evidence).role == 2) = true →
      tickOne allEvidence evalOk evaluated key = (key :: evaluated, false)) ∧
    (∀ cfg keccak fetch rnd modelFn refundOk now evidence out,
      evaluateDispute cfg keccak fetch rnd modelFn refundOk now evidence = Except.ok out →
      (out.ledgerAfter.filter (fun e => e.role == 2)).length =
        (evidence.filter (fun e => e.role == 2)).length + 1) := by
  constructor
  · intro allEvidence evalOk evaluated key hkey hA
    have hmem : key ∉ evaluated := by simpa using hkey
    simp [tickOne, hmem, hA]
  · intro cfg keccak fetch rnd modelFn refundOk now evidence out h
    obtain ⟨raw, dj, -, -, -, hout⟩ := evaluateDispute_ok_inv h
    rw [hout, mkEvalOutcome_ledgerAfter, List.filter_append]
    simp

/-- Witness for C5 (amended): the scheduler skips the already-ruled
concrete dispute, while the manual path on the same ledger appends a
second Arbiter entry. -/
theorem c5_amended_guard_only_in_scheduler_witness :
    tickOne c5Ledger true [] "dispute-1" = (["dispute-1"], false) ∧
    (c5Out.ledgerAfter.filter (fun e => e.role == 2)).length =
      (c5Ledger.filter (fun e => e.role == 2)).length + 1 := by
  constructor
  · exact c5_amended_guard_only_in_scheduler.1 c5Ledger true [] "dispute-1" (by rfl) (by rfl)
  · exact c5_amended_guard_only_in_scheduler.2 wCfg wKeccak (fun _ => none) (mkRat 1 2)
      wModel true 9 c5Ledger c5Out (by
        set_option maxRecDepth 80000 in exact rfl)

/-! ## C9 -/

/-- A second payer submission (same role, different identifier). -/
def c9p2 : Evidence := ⟨"0xPayer", 0, 1, "second payer submission"⟩

/-- The arbiter's prior ruling on the ledger, carrying the original seed. -/
def c9Arb : Evidence :=
  ⟨"0xArbiter", 2, 2, "\x7b\"type\":\"arbiter-ruling\",\"commitment\":\x7b\"seed\":123\x7d\x7d"⟩

def c9All : List Evidence := [wPayer, c9p2, wReceiver, c9Arb]

def c9NonArb : List Evidence := c9All.filter (fun e => e.role != 2)

def c9ROut : ReplayOut :=
  match replayVerify wCfg wKeccak (fun _ => none) wModel c9All with
  | Except.ok o => o
  | Except.error _ => default

set_option maxRecDepth 80000 in
/-- **C9 counterexample**: with a duplicate payer entry on the ledger, the
non-Arbiter evidence the replay uses is *not* the canonical first-per-role
selection, and the replayed prompt (visible through the recomputed
`promptHash`) is the one built over *all* non-Arbiter entries, which
differs from the prompt over the canonical selection.  (The seed is still
correctly extracted from the Arbiter evidence.) -/
theorem c9_counterexample :
    c9NonArb ≠ canonicalFirstPerRole c9NonArb ∧
    PromptsTs.buildPrompt c9NonArb (resolveEvidence (fun _ => none) c9NonArb) ≠
      PromptsTs.buildPrompt (canonicalFirstPerRole c9NonArb)
        (resolveEvidence (fun _ => none) (canonicalFirstPerRole c9NonArb)) ∧
    replayVerify wCfg wKeccak (fun _ => none) wModel c9All = Except.ok c9ROut ∧
    c9ROut.replayCommitment.promptHash =
      wKeccak (utf8Encode (PromptsTs.buildPrompt c9NonArb
        (resolveEvidence (fun _ => none) c9NonArb))) ∧
    c9ROut.replayCommitment.seed = 123 := by
  refine ⟨by decide, by decide, rfl, rfl, rfl⟩

/-- **C9 (amended)**: the replay rebuilds its prompt from *all* non-Arbiter
evidence entries in ledger order (duplicates per role included), re-invokes
the model with the seed extracted from the existing Arbiter evidence — the
first Arbiter entry whose JSON carries `commitment.seed` (preferred) or
`seed` wins, non-JSON or seedless entries are skipped, and the configured
default is the fallback when none is found — and recomputes a Commitment
over that rebuilt prompt, that seed, and the fresh display-stripped
response. -/
theorem c9_amended_replay_uses_all_non_arbiter :
    (∀ cfg keccak fetch modelFn allEvidence out,
      replayVerify cfg keccak fetch modelFn allEvidence = Except.ok out →
      ∃ seed raw,
        (match extractSeedVal (allEvidence.filter (fun e => e.role == 2)) with
          | some v => seedToNat v
          | none => some cfg.eigenaiSeed) = some seed ∧
        modelFn SYSTEM_PROMPT
          (PromptsTs.buildPrompt (allEvidence.filter (fun e => e.role != 2))
            (resolveEvidence fetch (allEvidence.filter (fun e => e.role != 2))))
          seed = some raw ∧
        out.replayCommitment = createCommitment keccak
          (PromptsTs.buildPrompt (allEvidence.filter (fun e => e.role != 2))
            (resolveEvidence fetch (allEvidence.filter (fun e => e.role != 2))))
          seed (stripTags raw) ∧
        out.displayContent = stripTags raw) ∧
    (∀ (e : Evidence) rest p v, jsonParse e.cid = some p →
      (jsGet p "commitment").bind (fun c => jsGet c "seed") = some v →
      extractSeedVal (e :: rest) = some v) ∧
    (∀ (e : Evidence) rest p v, jsonParse e.cid = some p →
      (jsGet p "commitment").bind (fun c => jsGet c "seed") = none →
      jsGet p "seed" = some v →
      extractSeedVal (e :: rest) = some v) ∧
    (∀ (e : Evidence) rest, jsonParse e.cid = none →
      extractSeedVal (e :: rest) = extractSeedVal rest) ∧
    (∀ (e : Evidence) rest p, jsonParse e.cid = some p → seedFieldOf p = none →
      extractSeedVal (e :: rest) = extractSeedVal rest) ∧
    extractSeedVal [] = none := by
  refine ⟨?_, ?_, ?_, ?_, ?_, rfl⟩
  · intro cfg keccak fetch modelFn allEvidence out h
    simp only [replayVerify] at h
    split at h
    · simp at h
    · rename_i seed hseed
      split at h
      · simp at h
      · rename_i raw hmodel
        refine ⟨seed, raw, hseed, hmodel, ?_, ?_⟩
        · rw [(Except.ok.injEq _ _).mp h |>.symm]
        · rw [(Except.ok.injEq _ _).mp h |>.symm]
  · intro e rest p v hp hv
    have hsf : seedFieldOf p = some v := by
      simp only [seedFieldOf, hv]
    simp only [extractSeedVal, hp, hsf]
  · intro e rest p v hp hnone hv
    have hsf : seedFieldOf p = some v := by
      simp only [seedFieldOf, hnone, hv]
    simp only [extractSeedVal, hp, hsf]
  · intro e rest hp
    simp only [extractSeedVal, hp]
  · intro e rest p hp hfield
    simp only [extractSeedVal, hp, hfield]

set_option maxRecDepth 80000 in
/-- Witness for C9 (amended) at the concrete four-entry ledger. -/
theorem c9_amended_replay_uses_all_non_arbiter_witness :
    ∃ seed raw,
      (match extractSeedVal (c9All.filter (fun e => e.role == 2)) with
        | some v => seedToNat v
        | none => some wCfg.eigenaiSeed) = some seed ∧
      wModel SYSTEM_PROMPT
        (PromptsTs.buildPrompt (c9All.filter (fun e => e.role != 2))
          (resolveEvidence (fun _ => none) (c9All.filter (fun e => e.role != 2))))
        seed = some raw ∧
      c9ROut.replayCommitment = createCommitment wKeccak
        (PromptsTs.buildPrompt (c9All.filter (fun e => e.role != 2))
          (resolveEvidence (fun _ => none) (c9All.filter (fun e => e.role != 2))))
        seed (stripTags raw) ∧
      c9ROut.displayContent = stripTags raw :=
  c9_amended_replay_uses_all_non_arbiter.1 wCfg wKeccak (fun _ => none) wModel c9All
    c9ROut (by rfl)

end X402r

-- sanity examples (no claim names here)
example : X402r.jsonParse "\x7b\"a\": 1\x7d" = some (X402r.Json.obj [("a", X402r.Json.num 1)]) := rfl

example : X402r.jsonParse "\x7b\"decision\":\"approve\",\"confidence\":0.9\x7d" =
    some (X402r.Json.obj [("decision", X402r.Json.str "approve"),
      ("confidence", X402r.Json.num (mkRat 9 10))]) := rfl
